import Mathlib

/-!
Verification of the export/import (backup & restore) engine of the
`intake` nutrition tracker, a shallow embedding of
`src/api/cmd/api/main.go` (`HandleExportData`, `HandleImportData`) over
the relational schema of the SQL init script.

Modelling conventions:
* Each table is a list of rows; the primary-key (or, for
  `daily_activity`, the `(user_id, date)` unique-key) upsert that
  `INSERT ... ON CONFLICT ... DO UPDATE` performs is `upsertBy`.
* Go `time.Time` values are `Nat`; `0` plays the Go zero value
  (`IsZero`).  SQL `NUMERIC`/Go `float64` quantities are `Int`: the
  engine only transports them, so any type with decidable equality is
  faithful.
* `NULL`-able columns that the handlers read through `COALESCE(...,'')`
  and always write as Go strings are plain `String`s; the one
  `NULL`-able column the import writes as SQL `NULL` (`food_items.user_id`)
  is `Option String`.
* The transaction is the usual staged-store semantics: `importWithUser`
  builds the committed store, `runImport` exposes the rollback (the
  handler's `defer tx.Rollback` together with `return` before
  `tx.Commit` on every error path).
* Store-level failures (connection loss, constraint violations) are the
  storage engine's, declared an external collaborator by the design
  document; the one application-level row failure, the
  `time.Parse("2006-01-02", it.Date)` check, is modelled exactly.
-/

/-- The hard-coded single-tenant fallback user id (`DefaultUserID` in
`main.go`; the export/import handlers repeat the literal). -/
def DefaultUserID : String := "00000000-0000-0000-0000-000000000001"

/-- A row of `users`: `id, email, display_name, created_at`. -/
structure UserRow where
  id : String
  email : Option String
  displayName : String
  createdAt : Nat
deriving DecidableEq

/-- A row of `food_items` as stored: `user_id` is the one `NULL`-able
owner column (`UUID NULL REFERENCES users`). -/
structure FoodItemRow where
  id : String
  userID : Option String
  name : String
  brand : String
  servingLabel : String
  source : String
  caloriesPerServing : Int
  proteinPerServing : Int
  carbsPerServing : Int
  fatPerServing : Int
  fiberPerServing : Int
  createdAt : Nat
deriving DecidableEq

/-- `ExportFoodItem` of `main.go`: the bundle's food-item row.  The
export reads `COALESCE(user_id::text, '')`, so `userID` is a `String`
and `""` stands for an unowned item. -/
structure ExportFoodItem where
  id : String
  userID : String
  name : String
  brand : String
  servingLabel : String
  source : String
  caloriesPerServing : Int
  proteinPerServing : Int
  carbsPerServing : Int
  fatPerServing : Int
  fiberPerServing : Int
  createdAt : Nat
deriving DecidableEq

/-- `ExportRecipe` of `main.go`; also the stored `recipes` row (the
export scan copies every column, `instructions` through `COALESCE`). -/
structure ExportRecipe where
  id : String
  userID : String
  name : String
  instructions : String
  yieldCount : Int
  createdAt : Nat
deriving DecidableEq

/-- `ExportRecipeIngredient` of `main.go`; also the stored
`recipe_ingredients` row. -/
structure ExportRecipeIngredient where
  id : String
  recipeID : String
  foodItemID : String
  amountG : Int
  createdAt : Nat
deriving DecidableEq

/-- `ExportRecipePortion` of `main.go`; also the stored
`recipe_portions` row. -/
structure ExportRecipePortion where
  id : String
  recipeID : String
  name : String
  portionCount : Int
  createdAt : Nat
deriving DecidableEq

/-- `ExportPreset` of `main.go`; also the stored `presets` row. -/
structure ExportPreset where
  id : String
  userID : String
  name : String
  pinned : Bool
  createdAt : Nat
deriving DecidableEq

/-- `ExportPresetItem` of `main.go`; also the stored `preset_items`
row. -/
structure ExportPresetItem where
  id : String
  presetID : String
  kind : String
  refID : String
  servings : Int
  createdAt : Nat
deriving DecidableEq

/-- `ExportLogEntry` of `main.go`; also the stored `log_entries` row. -/
structure ExportLogEntry where
  id : String
  userID : String
  occurredAt : Nat
  kind : String
  refID : String
  servings : Int
  meal : String
  note : String
  createdAt : Nat
deriving DecidableEq

/-- `ExportBodyWeight` of `main.go`; also the stored `body_weights`
row. -/
structure ExportBodyWeight where
  id : String
  userID : String
  measuredAt : Nat
  weightKg : Int
  source : String
  note : String
  createdAt : Nat
deriving DecidableEq

/-- `ExportDailyActivity` of `main.go`; also the stored `daily_activity`
row with its `date` kept as the `YYYY-MM-DD` string the handler formats
and parses.  (The table's surrogate `id` column is neither exported nor
written by the import, which keys on `(user_id, date)`; it is omitted.) -/
structure ExportDailyActivity where
  userID : String
  date : String
  steps : Int
  activeKcalEst : Int
  source : String
  createdAt : Nat
deriving DecidableEq

/-- `ExportBundle` of `main.go`: the versioned document. -/
structure ExportBundle where
  version : Int
  exportedAt : Nat
  userID : String
  foodItems : List ExportFoodItem
  recipes : List ExportRecipe
  recipeIngredients : List ExportRecipeIngredient
  recipePortions : List ExportRecipePortion
  presets : List ExportPreset
  presetItems : List ExportPresetItem
  logEntries : List ExportLogEntry
  bodyWeights : List ExportBodyWeight
  dailyActivity : List ExportDailyActivity
deriving DecidableEq

/-- The relational store: the nine entity tables plus `users`. -/
structure Store where
  users : List UserRow
  foodItems : List FoodItemRow
  recipes : List ExportRecipe
  recipeIngredients : List ExportRecipeIngredient
  recipePortions : List ExportRecipePortion
  presets : List ExportPreset
  presetItems : List ExportPresetItem
  logEntries : List ExportLogEntry
  bodyWeights : List ExportBodyWeight
  dailyActivity : List ExportDailyActivity
deriving DecidableEq

/-- Leap-year rule used by Go's `time` package day-range validation. -/
def isLeapYear (y : Nat) : Bool :=
  y % 4 = 0 && (y % 100 ≠ 0 || y % 400 = 0)

/-- Days in a month, matching Go's `time` package. -/
def daysInMonth (y m : Nat) : Nat :=
  match m with
  | 1 => 31
  | 2 => if isLeapYear y then 29 else 28
  | 3 => 31
  | 4 => 30
  | 5 => 31
  | 6 => 30
  | 7 => 31
  | 8 => 31
  | 9 => 30
  | 10 => 31
  | 11 => 30
  | 12 => 31
  | _ => 0

/-- Numeric value of a decimal digit character. -/
def digitVal (c : Char) : Nat := c.toNat - '0'.toNat

/-- Go's `time.Parse("2006-01-02", s)` as the import uses it: exactly
ten characters `dddd-dd-dd`, month `01..12`, day `01..` bounded by the
month's length (leap years included); anything else is an error. -/
def parseActivityDate (s : String) : Option (Nat × Nat × Nat) :=
  match s.toList with
  | [y1, y2, y3, y4, h1, m1, m2, h2, d1, d2] =>
    if h1 = '-' ∧ h2 = '-' ∧ y1.isDigit ∧ y2.isDigit ∧ y3.isDigit ∧ y4.isDigit
        ∧ m1.isDigit ∧ m2.isDigit ∧ d1.isDigit ∧ d2.isDigit then
      let y := ((digitVal y1 * 10 + digitVal y2) * 10 + digitVal y3) * 10 + digitVal y4
      let m := digitVal m1 * 10 + digitVal m2
      let d := digitVal d1 * 10 + digitVal d2
      if 1 ≤ m ∧ m ≤ 12 ∧ 1 ≤ d ∧ d ≤ daysInMonth y m then some (y, m, d) else none
    else none
  | _ => none

/-- `INSERT ... ON CONFLICT (key) DO UPDATE/DO NOTHING` against a table:
if a row with the incoming row's key exists it is merged in place via
`merge old incoming`, otherwise the incoming row is appended. -/
def upsertBy {α κ : Type} [DecidableEq κ] (k : α → κ) (merge : α → α → α)
    (S : List α) (row : α) : List α :=
  if ∃ r ∈ S, k r = k row then
    S.map fun r => if k r = k row then merge r row else r
  else S ++ [row]

/-- One import loop over a collection: upsert each staged row in order. -/
def applyRows {α κ : Type} [DecidableEq κ] (k : α → κ) (merge : α → α → α)
    (S : List α) (L : List α) : List α :=
  L.foldl (upsertBy k merge) S

/-- `food_items` `DO UPDATE` list: every column except `created_at`. -/
def foodItemsMerge (old new : FoodItemRow) : FoodItemRow :=
  { new with createdAt := old.createdAt }

/-- `recipes` `DO UPDATE` list: every column except `created_at`. -/
def recipesMerge (old new : ExportRecipe) : ExportRecipe :=
  { new with createdAt := old.createdAt }

/-- `recipe_ingredients` `DO UPDATE` list: every column except
`created_at`. -/
def recipeIngredientsMerge (old new : ExportRecipeIngredient) : ExportRecipeIngredient :=
  { new with createdAt := old.createdAt }

/-- `recipe_portions` `DO UPDATE` list: every column except
`created_at`. -/
def recipePortionsMerge (old new : ExportRecipePortion) : ExportRecipePortion :=
  { new with createdAt := old.createdAt }

/-- `presets` `DO UPDATE` list: every column except `created_at`. -/
def presetsMerge (old new : ExportPreset) : ExportPreset :=
  { new with createdAt := old.createdAt }

/-- `preset_items` `DO UPDATE` list: every column except `created_at`. -/
def presetItemsMerge (old new : ExportPresetItem) : ExportPresetItem :=
  { new with createdAt := old.createdAt }

/-- `log_entries` `DO UPDATE` list: every column except `created_at`
(`occurred_at` IS in the list). -/
def logEntriesMerge (old new : ExportLogEntry) : ExportLogEntry :=
  { new with createdAt := old.createdAt }

/-- `body_weights` `DO UPDATE` list: every column except `created_at`
(`measured_at` IS in the list). -/
def bodyWeightsMerge (old new : ExportBodyWeight) : ExportBodyWeight :=
  { new with createdAt := old.createdAt }

/-- `daily_activity` `ON CONFLICT (user_id, date) DO UPDATE` list:
`steps`, `active_calories_kcal_est`, `source`; `created_at` is kept and
the conflict key `(user_id, date)` coincides between old and new
whenever the merge fires. -/
def dailyActivityMerge (old new : ExportDailyActivity) : ExportDailyActivity :=
  { new with createdAt := old.createdAt }

/-- `users` `ON CONFLICT (id) DO NOTHING`: the existing row is left
untouched. -/
def usersMergeNothing (old _new : UserRow) : UserRow := old

/-- The `user_id` query parameter after its default, as both handlers
compute it (`if userID == "" { userID = DefaultUserID }`). -/
def defaultQueryUser (queryParam : String) : String :=
  if queryParam = "" then DefaultUserID else queryParam

/-- Effective-user resolution of the import handler: the defaulted query
parameter, overridden by the bundle's `user_id` exactly when the raw
query parameter was empty and the bundle's `user_id` is non-empty. -/
def resolveEffectiveUser (queryParam bundleUser : String) : String :=
  if queryParam = "" ∧ bundleUser ≠ "" then bundleUser else defaultQueryUser queryParam

/-- The placeholder `users` row the import inserts
(`VALUES ($1, 'Imported User')`); `created_at` takes the store's clock,
modelled by the operation timestamp. -/
def placeholderUser (eff : String) (now : Nat) : UserRow :=
  { id := eff, email := none, displayName := "Imported User", createdAt := now }

/-- `INSERT INTO users ... ON CONFLICT (id) DO NOTHING` for the
effective user, issued before any collection is written. -/
def ensureUser (eff : String) (now : Nat) (users : List UserRow) : List UserRow :=
  upsertBy (fun u => u.id) usersMergeNothing users (placeholderUser eff now)

/-- Staging of a bundle food item: `created_at` defaulted to the
operation `now` when zero; the owner becomes the effective user when
the bundle row carried a non-empty `user_id` and SQL `NULL` otherwise
(`var foodUserID any; if it.UserID != "" { foodUserID = effectiveUserID }`). -/
def stageFoodItem (eff : String) (now : Nat) (it : ExportFoodItem) : FoodItemRow :=
  { id := it.id
    userID := if it.userID ≠ "" then some eff else none
    name := it.name
    brand := it.brand
    servingLabel := it.servingLabel
    source := it.source
    caloriesPerServing := it.caloriesPerServing
    proteinPerServing := it.proteinPerServing
    carbsPerServing := it.carbsPerServing
    fatPerServing := it.fatPerServing
    fiberPerServing := it.fiberPerServing
    createdAt := if it.createdAt = 0 then now else it.createdAt }

/-- Staging of a bundle recipe: owner forced to the effective user,
`created_at` defaulted to `now` when zero. -/
def stageRecipe (eff : String) (now : Nat) (it : ExportRecipe) : ExportRecipe :=
  { id := it.id
    userID := eff
    name := it.name
    instructions := it.instructions
    yieldCount := it.yieldCount
    createdAt := if it.createdAt = 0 then now else it.createdAt }

/-- Staging of a bundle recipe ingredient (no owner column). -/
def stageRecipeIngredient (now : Nat) (it : ExportRecipeIngredient) : ExportRecipeIngredient :=
  { id := it.id
    recipeID := it.recipeID
    foodItemID := it.foodItemID
    amountG := it.amountG
    createdAt := if it.createdAt = 0 then now else it.createdAt }

/-- Staging of a bundle recipe portion (no owner column). -/
def stageRecipePortion (now : Nat) (it : ExportRecipePortion) : ExportRecipePortion :=
  { id := it.id
    recipeID := it.recipeID
    name := it.name
    portionCount := it.portionCount
    createdAt := if it.createdAt = 0 then now else it.createdAt }

/-- Staging of a bundle preset: owner forced to the effective user. -/
def stagePreset (eff : String) (now : Nat) (it : ExportPreset) : ExportPreset :=
  { id := it.id
    userID := eff
    name := it.name
    pinned := it.pinned
    createdAt := if it.createdAt = 0 then now else it.createdAt }

/-- Staging of a bundle preset item (no owner column). -/
def stagePresetItem (now : Nat) (it : ExportPresetItem) : ExportPresetItem :=
  { id := it.id
    presetID := it.presetID
    kind := it.kind
    refID := it.refID
    servings := it.servings
    createdAt := if it.createdAt = 0 then now else it.createdAt }

/-- Staging of a bundle log entry: owner forced to the effective user;
both `created_at` and `occurred_at` defaulted to `now` when zero. -/
def stageLogEntry (eff : String) (now : Nat) (it : ExportLogEntry) : ExportLogEntry :=
  { id := it.id
    userID := eff
    occurredAt := if it.occurredAt = 0 then now else it.occurredAt
    kind := it.kind
    refID := it.refID
    servings := it.servings
    meal := it.meal
    note := it.note
    createdAt := if it.createdAt = 0 then now else it.createdAt }

/-- Staging of a bundle body weight: owner forced to the effective user;
both `created_at` and `measured_at` defaulted to `now` when zero. -/
def stageBodyWeight (eff : String) (now : Nat) (it : ExportBodyWeight) : ExportBodyWeight :=
  { id := it.id
    userID := eff
    measuredAt := if it.measuredAt = 0 then now else it.measuredAt
    weightKg := it.weightKg
    source := it.source
    note := it.note
    createdAt := if it.createdAt = 0 then now else it.createdAt }

/-- Staging of a bundle daily-activity row: owner forced to the
effective user, `created_at` defaulted to `now` when zero. -/
def stageDailyActivity (eff : String) (now : Nat) (it : ExportDailyActivity) : ExportDailyActivity :=
  { userID := eff
    date := it.date
    steps := it.steps
    activeKcalEst := it.activeKcalEst
    source := it.source
    createdAt := if it.createdAt = 0 then now else it.createdAt }

/-- The one row-level failure the import surfaces itself: the
`writeJSON(w, 400, "invalid activity date: %s")` response. -/
inductive ImportError where
  | invalidActivityDate (date : String)
deriving DecidableEq

deriving instance DecidableEq for Except

/-- The key of `daily_activity` upserts: `(user_id, date)`. -/
def activityKey (a : ExportDailyActivity) : String × String := (a.userID, a.date)

/-- The `daily_activity` loop: validate each row's date with
`time.Parse("2006-01-02", it.Date)` and abort on the first failure,
otherwise upsert the staged row on `(user_id, date)`. -/
def importActivities (eff : String) (now : Nat) (table : List ExportDailyActivity) :
    List ExportDailyActivity → Except ImportError (List ExportDailyActivity)
  | [] => .ok table
  | it :: rest =>
    match parseActivityDate it.date with
    | none => .error (.invalidActivityDate it.date)
    | some _ =>
      importActivities eff now
        (upsertBy activityKey dailyActivityMerge table (stageDailyActivity eff now it)) rest

/-- Total number of rows the import writes when every row succeeds (the
handler's `rowsImported`, incremented once per row; the count is only
ever observable on the success path). -/
def stagedCount (B : ExportBundle) : Nat :=
  B.foodItems.length + B.recipes.length + B.recipeIngredients.length +
    B.recipePortions.length + B.presets.length + B.presetItems.length +
    B.logEntries.length + B.bodyWeights.length + B.dailyActivity.length

/-- The body of the import transaction for a resolved effective user:
ensure the user row, then upsert every collection in the handler's
fixed statement order (food items, recipes, ingredients, portions,
presets, preset items, log entries, body weights, daily activity),
aborting on the first invalid activity date. -/
def importWithUser (eff : String) (now : Nat) (S : Store) (B : ExportBundle) :
    Except ImportError (Store × Nat) :=
  let users := ensureUser eff now S.users
  let foodItems :=
    applyRows (fun r => r.id) foodItemsMerge S.foodItems (B.foodItems.map (stageFoodItem eff now))
  let recipes :=
    applyRows (fun r => r.id) recipesMerge S.recipes (B.recipes.map (stageRecipe eff now))
  let recipeIngredients :=
    applyRows (fun r => r.id) recipeIngredientsMerge S.recipeIngredients
      (B.recipeIngredients.map (stageRecipeIngredient now))
  let recipePortions :=
    applyRows (fun r => r.id) recipePortionsMerge S.recipePortions
      (B.recipePortions.map (stageRecipePortion now))
  let presets :=
    applyRows (fun r => r.id) presetsMerge S.presets (B.presets.map (stagePreset eff now))
  let presetItems :=
    applyRows (fun r => r.id) presetItemsMerge S.presetItems
      (B.presetItems.map (stagePresetItem now))
  let logEntries :=
    applyRows (fun r => r.id) logEntriesMerge S.logEntries
      (B.logEntries.map (stageLogEntry eff now))
  let bodyWeights :=
    applyRows (fun r => r.id) bodyWeightsMerge S.bodyWeights
      (B.bodyWeights.map (stageBodyWeight eff now))
  match importActivities eff now S.dailyActivity B.dailyActivity with
  | .error e => .error e
  | .ok dailyActivity =>
    .ok ({ users := users, foodItems := foodItems, recipes := recipes,
           recipeIngredients := recipeIngredients, recipePortions := recipePortions,
           presets := presets, presetItems := presetItems, logEntries := logEntries,
           bodyWeights := bodyWeights, dailyActivity := dailyActivity },
         stagedCount B)

/-- `HandleImportData` inside the transaction: the effective user is
resolved once from the query parameter and the bundle's `user_id`, then
the whole bundle is written. -/
def importTx (S : Store) (B : ExportBundle) (queryParam : String) (now : Nat) :
    Except ImportError (Store × Nat) :=
  importWithUser (resolveEffectiveUser queryParam B.userID) now S B

/-- The observable outcome of `HandleImportData`: on success the
committed store and the row count, on any error the rolled-back
(original) store and the single error value. -/
def runImport (S : Store) (B : ExportBundle) (queryParam : String) (now : Nat) :
    Store × Except ImportError Nat :=
  match importTx S B queryParam now with
  | .ok (S₁, n) => (S₁, .ok n)
  | .error e => (S, .error e)

/-- The bundle row emitted for a stored food item:
`COALESCE(user_id::text, '')`. -/
def exportFoodItem (r : FoodItemRow) : ExportFoodItem :=
  { id := r.id
    userID := r.userID.getD ""
    name := r.name
    brand := r.brand
    servingLabel := r.servingLabel
    source := r.source
    caloriesPerServing := r.caloriesPerServing
    proteinPerServing := r.proteinPerServing
    carbsPerServing := r.carbsPerServing
    fatPerServing := r.fatPerServing
    fiberPerServing := r.fiberPerServing
    createdAt := r.createdAt }

/-- `HandleExportData`: food items are read globally; every other
collection is filtered to the target user (ingredients, portions and
preset items through their parent's owner, mirroring the SQL joins);
every row is emitted with its stored identifier and timestamps. -/
def exportBundle (S : Store) (queryParam : String) (exportNow : Nat) : ExportBundle :=
  let userID := defaultQueryUser queryParam
  { version := 1
    exportedAt := exportNow
    userID := userID
    foodItems := S.foodItems.map exportFoodItem
    recipes := S.recipes.filter fun r => r.userID = userID
    recipeIngredients := S.recipeIngredients.filter fun ri =>
      S.recipes.any fun r => r.id = ri.recipeID ∧ r.userID = userID
    recipePortions := S.recipePortions.filter fun rp =>
      S.recipes.any fun r => r.id = rp.recipeID ∧ r.userID = userID
    presets := S.presets.filter fun p => p.userID = userID
    presetItems := S.presetItems.filter fun pi =>
      S.presets.any fun p => p.id = pi.presetID ∧ p.userID = userID
    logEntries := S.logEntries.filter fun l => l.userID = userID
    bodyWeights := S.bodyWeights.filter fun w => w.userID = userID
    dailyActivity := S.dailyActivity.filter fun a => a.userID = userID }

/-! ### Generic theory of `upsertBy`/`applyRows` -/

section UpsertTheory

variable {α κ : Type} [DecidableEq κ] {k : α → κ} {merge : α → α → α}

theorem upsertBy_pos {S : List α} {row : α} (h : ∃ r ∈ S, k r = k row) :
    upsertBy k merge S row = S.map fun r => if k r = k row then merge r row else r := by
  simp [upsertBy, h]

theorem upsertBy_neg {S : List α} {row : α} (h : ¬ ∃ r ∈ S, k r = k row) :
    upsertBy k merge S row = S ++ [row] := by
  simp only [upsertBy, if_neg h]

theorem map_k_upsertBy_pos (hK : ∀ x y, k x = k y → k (merge x y) = k y)
    {S : List α} {row : α} (h : ∃ r ∈ S, k r = k row) :
    (upsertBy k merge S row).map k = S.map k := by
  rw [upsertBy_pos h, List.map_map]
  refine List.map_congr_left fun r _ => ?_
  simp only [Function.comp_apply]
  by_cases hr : k r = k row
  · rw [if_pos hr, hK r row hr, hr]
  · rw [if_neg hr]

theorem map_k_upsertBy_neg {S : List α} {row : α} (h : ¬ ∃ r ∈ S, k r = k row) :
    (upsertBy k merge S row).map k = S.map k ++ [k row] := by
  rw [upsertBy_neg h, List.map_append, List.map_singleton]

theorem mem_map_k_upsertBy (hK : ∀ x y, k x = k y → k (merge x y) = k y)
    {S : List α} {row : α} {c : κ} (h : c ∈ S.map k) :
    c ∈ (upsertBy k merge S row).map k := by
  by_cases hm : ∃ r ∈ S, k r = k row
  · rwa [map_k_upsertBy_pos hK hm]
  · rw [map_k_upsertBy_neg hm]; exact List.mem_append_left _ h

theorem self_mem_map_k_upsertBy (hK : ∀ x y, k x = k y → k (merge x y) = k y)
    {S : List α} {row : α} : k row ∈ (upsertBy k merge S row).map k := by
  by_cases hm : ∃ r ∈ S, k r = k row
  · rw [map_k_upsertBy_pos hK hm]
    obtain ⟨r, hr, he⟩ := hm
    exact he ▸ List.mem_map_of_mem k hr
  · rw [map_k_upsertBy_neg hm]; exact List.mem_append_right _ (List.mem_singleton.mpr rfl)

theorem length_upsertBy_pos {S : List α} {row : α} (h : ∃ r ∈ S, k r = k row) :
    (upsertBy k merge S row).length = S.length := by
  rw [upsertBy_pos h, List.length_map]

theorem applyRows_nil (S : List α) : applyRows k merge S [] = S := rfl

theorem applyRows_cons (S : List α) (r : α) (L : List α) :
    applyRows k merge S (r :: L) = applyRows k merge (upsertBy k merge S r) L := rfl

theorem applyRows_concat (S : List α) (L : List α) (r : α) :
    applyRows k merge S (L ++ [r]) = upsertBy k merge (applyRows k merge S L) r := by
  simp [applyRows, List.foldl_append]

theorem mem_map_k_applyRows (hK : ∀ x y, k x = k y → k (merge x y) = k y)
    {S L : List α} {c : κ} (h : c ∈ S.map k) :
    c ∈ (applyRows k merge S L).map k := by
  induction L generalizing S with
  | nil => exact h
  | cons r L ih => exact ih (mem_map_k_upsertBy hK h)

theorem key_mem_map_k_applyRows (hK : ∀ x y, k x = k y → k (merge x y) = k y)
    {S L : List α} {r : α} (h : r ∈ L) :
    k r ∈ (applyRows k merge S L).map k := by
  induction L generalizing S with
  | nil => cases h
  | cons a L ih =>
    rcases List.mem_cons.mp h with h | h
    · subst h
      rw [applyRows_cons]
      exact mem_map_k_applyRows hK (self_mem_map_k_upsertBy hK)
    · rw [applyRows_cons]
      exact ih h

theorem length_applyRows_of_keys (hK : ∀ x y, k x = k y → k (merge x y) = k y)
    {S L : List α} (h : ∀ r ∈ L, k r ∈ S.map k) :
    (applyRows k merge S L).length = S.length := by
  induction L generalizing S with
  | nil => rfl
  | cons r L ih =>
    have hr : ∃ x ∈ S, k x = k r := by
      obtain ⟨x, hx, he⟩ := List.mem_map.mp (h r (List.mem_cons_self r L))
      exact ⟨x, hx, he⟩
    rw [applyRows_cons, ih fun r' hr' => mem_map_k_upsertBy hK (h r' (List.mem_cons_of_mem _ hr')),
      length_upsertBy_pos hr]

theorem applyRows_fix {S L : List α}
    (h : ∀ r ∈ L, (∃ x ∈ S, k x = k r) ∧ ∀ x ∈ S, k x = k r → merge x r = x) :
    applyRows k merge S L = S := by
  induction L with
  | nil => rfl
  | cons r L ih =>
    have heq : upsertBy k merge S r = S := by
      rw [upsertBy_pos (h r (List.mem_cons_self r L)).1]
      have : ∀ x ∈ S, (if k x = k r then merge x r else x) = x := by
        intro x hx
        by_cases hk : k x = k r
        · rw [if_pos hk, (h r (List.mem_cons_self r L)).2 x hx hk]
        · rw [if_neg hk]
      calc S.map (fun x => if k x = k r then merge x r else x)
          = S.map id := List.map_congr_left fun x hx => this x hx
        _ = S := List.map_id S
    rw [applyRows_cons, heq, ih fun r' hr' => h r' (List.mem_cons_of_mem _ hr')]

theorem mem_applyRows {S L : List α} {x : α} (hx : x ∈ applyRows k merge S L) :
    x ∈ S ∨ ∃ r ∈ L, x = r ∨ ∃ t, x = merge t r := by
  induction L generalizing S with
  | nil => exact Or.inl hx
  | cons r L ih =>
    rw [applyRows_cons] at hx
    rcases ih hx with h | ⟨r', hr', h⟩
    · by_cases hm : ∃ t ∈ S, k t = k r
      · rw [upsertBy_pos hm] at h
        obtain ⟨t, ht, he⟩ := List.mem_map.mp h
        by_cases hk : k t = k r
        · exact Or.inr ⟨r, List.mem_cons_self r L, Or.inr ⟨t, by rw [← he, if_pos hk]⟩⟩
        · rw [if_neg hk] at he
          exact Or.inl (he ▸ ht)
      · rw [upsertBy_neg hm] at h
        rcases List.mem_append.mp h with h | h
        · exact Or.inl h
        · exact Or.inr ⟨r, List.mem_cons_self r L, Or.inl (List.mem_singleton.mp h)⟩
    · exact Or.inr ⟨r', List.mem_cons_of_mem _ hr', h⟩

end UpsertTheory

/-! ### Replay (idempotency) theory -/

section ReplayTheory

variable {α κ : Type} [DecidableEq κ] {k : α → κ} {merge : α → α → α}

/-- One reapplied upsert against a single row, seen from that row's
side: merged when the keys collide, untouched otherwise. -/
def replayStep (k : α → κ) (merge : α → α → α) (x r : α) : α :=
  if k x = k r then merge x r else x

/-- What replaying a whole staged list does to one stored row. -/
def replayMap (k : α → κ) (merge : α → α → α) (L : List α) (x : α) : α :=
  L.foldl (replayStep k merge) x

theorem replayMap_nil (x : α) : replayMap k merge [] x = x := rfl

theorem replayMap_cons (r : α) (L : List α) (x : α) :
    replayMap k merge (r :: L) x = replayMap k merge L (replayStep k merge x r) := rfl

theorem replayMap_concat (L : List α) (r x : α) :
    replayMap k merge (L ++ [r]) x = replayStep k merge (replayMap k merge L x) r := by
  simp [replayMap, List.foldl_append]

theorem replayMap_cases (hK : ∀ x y, k x = k y → k (merge x y) = k y)
    (hA : ∀ x y z, k x = k y → k y = k z → merge (merge x y) z = merge x z)
    (L : List α) (x : α) :
    replayMap k merge L x = x ∨
      ∃ r ∈ L, k r = k x ∧ replayMap k merge L x = merge x r := by
  induction L generalizing x with
  | nil => exact Or.inl rfl
  | cons r L ih =>
    rw [replayMap_cons]
    by_cases hk : k x = k r
    · rw [replayStep, if_pos hk]
      rcases ih (merge x r) with h | ⟨r', hr', hk', h⟩
      · exact Or.inr ⟨r, List.mem_cons_self r L, hk.symm, h⟩
      · rw [hK x r hk] at hk'
        refine Or.inr ⟨r', List.mem_cons_of_mem _ hr', hk'.trans hk.symm, ?_⟩
        rw [h, hA x r r' hk hk'.symm]
    · rw [replayStep, if_neg hk]
      rcases ih x with h | ⟨r', hr', hk', h⟩
      · exact Or.inl h
      · exact Or.inr ⟨r', List.mem_cons_of_mem _ hr', hk', h⟩

theorem applyRows_eq_map_replayMap (hK : ∀ x y, k x = k y → k (merge x y) = k y)
    {T L : List α} (h : ∀ r ∈ L, k r ∈ T.map k) :
    applyRows k merge T L = T.map (replayMap k merge L) := by
  induction L generalizing T with
  | nil =>
    rw [applyRows_nil]
    exact (List.map_id T).symm
  | cons r L ih =>
    rw [applyRows_cons]
    have hmem : ∃ x ∈ T, k x = k r := by
      obtain ⟨x, hx, he⟩ := List.mem_map.mp (h r (List.mem_cons_self r L))
      exact ⟨x, hx, he⟩
    have hup : upsertBy k merge T r = T.map fun x => replayStep k merge x r :=
      upsertBy_pos hmem
    have hkeys : (T.map fun x => replayStep k merge x r).map k = T.map k := by
      rw [List.map_map]
      refine List.map_congr_left fun x _ => ?_
      simp only [Function.comp_apply, replayStep]
      by_cases hk : k x = k r
      · rw [if_pos hk, hK x r hk, hk]
      · rw [if_neg hk]
    rw [hup, ih (by rw [hkeys]; exact fun r' hr' => h r' (List.mem_cons_of_mem _ hr')),
      List.map_map]
    refine List.map_congr_left fun x _ => ?_
    simp only [Function.comp_apply, replayMap_cons]

theorem replayMap_applyRows_fixed (hK : ∀ x y, k x = k y → k (merge x y) = k y)
    (hA : ∀ x y z, k x = k y → k y = k z → merge (merge x y) z = merge x z)
    (hI : ∀ x, merge x x = x)
    {S L : List α} : ∀ x ∈ applyRows k merge S L, replayMap k merge L x = x := by
  induction L using List.reverseRecOn with
  | nil => intro x _; rfl
  | append_singleton L r ih =>
    intro x hx
    rw [applyRows_concat] at hx
    rw [replayMap_concat]
    by_cases hmem : ∃ t ∈ applyRows k merge S L, k t = k r
    · rw [upsertBy_pos hmem] at hx
      obtain ⟨t, ht, he⟩ := List.mem_map.mp hx
      by_cases hkt : k t = k r
      · rw [if_pos hkt] at he
        subst he
        rcases replayMap_cases hK hA L (merge t r) with h | ⟨r', hr', hk', h⟩
        · rw [h, replayStep, if_pos (hK t r hkt), hA t r r hkt rfl]
        · rw [hK t r hkt] at hk'
          rw [h, hA t r r' hkt hk'.symm, replayStep,
            if_pos ((hK t r' (hkt.trans hk'.symm)).trans hk'),
            hA t r' r (hkt.trans hk'.symm) hk']
      · rw [if_neg hkt] at he
        subst he
        rw [ih t ht, replayStep, if_neg hkt]
    · rw [upsertBy_neg hmem] at hx
      rcases List.mem_append.mp hx with h | h
      · have hkx : ¬ k x = k r := fun hc => hmem ⟨x, h, hc⟩
        rw [ih x h, replayStep, if_neg hkx]
      · rw [List.mem_singleton.mp h]
        rcases replayMap_cases hK hA L r with h2 | ⟨r', hr', hk', h2⟩
        · rw [h2, replayStep, if_pos rfl, hI r]
        · rw [h2, replayStep, if_pos ((hK r r' hk'.symm).trans hk'), hA r r' r hk'.symm hk',
            hI r]

/-- Two staged rows are interchangeable for replay purposes when they
carry the same key and merge identically into any stored row (for this
engine: they differ at most in the `created_at` the merge discards). -/
def MergeEquiv (k : α → κ) (merge : α → α → α) (r' r : α) : Prop :=
  k r' = k r ∧ ∀ t, merge t r' = merge t r

theorem replayMap_congr {L' L : List α}
    (h : List.Forall₂ (MergeEquiv k merge) L' L) (x : α) :
    replayMap k merge L' x = replayMap k merge L x := by
  induction h generalizing x with
  | nil => rfl
  | @cons a b l₁ l₂ hr _ ih =>
    rw [replayMap_cons, replayMap_cons]
    have hstep : replayStep k merge x a = replayStep k merge x b := by
      rw [replayStep, replayStep, hr.1]
      by_cases hk : k x = k b
      · rw [if_pos hk, if_pos hk, hr.2]
      · rw [if_neg hk, if_neg hk]
    rw [hstep, ih]

theorem forall₂_exists_mem {R : α → α → Prop} {L' L : List α}
    (h : List.Forall₂ R L' L) {x : α} (hx : x ∈ L') : ∃ y ∈ L, R x y := by
  induction h with
  | nil => cases hx
  | cons hr _ ih =>
    rcases List.mem_cons.mp hx with hx | hx
    · exact ⟨_, List.mem_cons_self _ _, hx ▸ hr⟩
    · obtain ⟨y, hy, hxy⟩ := ih hx
      exact ⟨y, List.mem_cons_of_mem _ hy, hxy⟩

/-- Replay: reapplying a staged list that is `MergeEquiv`-equivalent to
the one already applied (in particular, the very same list) leaves the
table untouched. -/
theorem applyRows_replay (hK : ∀ x y, k x = k y → k (merge x y) = k y)
    (hA : ∀ x y z, k x = k y → k y = k z → merge (merge x y) z = merge x z)
    (hI : ∀ x, merge x x = x)
    {S L L' : List α} (h : List.Forall₂ (MergeEquiv k merge) L' L) :
    applyRows k merge (applyRows k merge S L) L' = applyRows k merge S L := by
  have hkeys : ∀ r' ∈ L', k r' ∈ (applyRows k merge S L).map k := by
    intro r' hr'
    obtain ⟨r, hr, hrr⟩ := forall₂_exists_mem h hr'
    exact hrr.1 ▸ key_mem_map_k_applyRows hK hr
  rw [applyRows_eq_map_replayMap hK hkeys]
  calc (applyRows k merge S L).map (replayMap k merge L')
      = (applyRows k merge S L).map (replayMap k merge L) :=
        List.map_congr_left fun x _ => replayMap_congr h x
    _ = (applyRows k merge S L).map id :=
        List.map_congr_left fun x hx => replayMap_applyRows_fixed hK hA hI x hx
    _ = applyRows k merge S L := List.map_id _

/-- An upsert whose merge keeps the stored row (`DO NOTHING`) is the
identity as soon as the key is already present. -/
theorem upsertBy_do_nothing {S : List α} {row : α}
    (hm : ∀ x y, merge x y = x) (h : ∃ r ∈ S, k r = k row) :
    upsertBy k merge S row = S := by
  rw [upsertBy_pos h]
  calc S.map (fun r => if k r = k row then merge r row else r)
      = S.map id := List.map_congr_left fun r _ => by
        by_cases hk : k r = k row
        · rw [if_pos hk, hm]; rfl
        · rw [if_neg hk]; rfl
    _ = S := List.map_id S

end ReplayTheory

/-! ### Characterizing the import transaction -/

/-- When every activity date parses, the activity loop is a plain
sequence of `(user_id, date)` upserts of the staged rows. -/
theorem importActivities_valid (eff : String) (now : Nat) :
    ∀ (rows table : List ExportDailyActivity),
      (∀ a ∈ rows, (parseActivityDate a.date).isSome) →
      importActivities eff now table rows =
        .ok (applyRows activityKey dailyActivityMerge table
          (rows.map (stageDailyActivity eff now)))
  | [], _, _ => rfl
  | it :: rest, table, h => by
    obtain ⟨v, hv⟩ := Option.isSome_iff_exists.mp (h it (List.mem_cons_self it rest))
    rw [importActivities, hv]
    exact importActivities_valid eff now rest _ fun a ha => h a (List.mem_cons_of_mem _ ha)

/-- The activity loop aborts, with the offending date in the error, as
soon as the list contains an unparsable date. -/
theorem importActivities_invalid (eff : String) (now : Nat) :
    ∀ (rows table : List ExportDailyActivity),
      (∃ a ∈ rows, parseActivityDate a.date = none) →
      ∃ a ∈ rows, parseActivityDate a.date = none ∧
        importActivities eff now table rows = .error (.invalidActivityDate a.date)
  | [], _, h => absurd h (by simp)
  | it :: rest, table, h => by
    cases hv : parseActivityDate it.date with
    | none =>
      exact ⟨it, List.mem_cons_self it rest, hv, by rw [importActivities, hv]⟩
    | some v =>
      obtain ⟨a, ha, had⟩ : ∃ a ∈ rest, parseActivityDate a.date = none := by
        obtain ⟨a, ha, had⟩ := h
        rcases List.mem_cons.mp ha with rfl | ha
        · rw [hv] at had; cases had
        · exact ⟨a, ha, had⟩
      obtain ⟨b, hb, hbd, hres⟩ := importActivities_invalid eff now rest
        (upsertBy activityKey dailyActivityMerge table (stageDailyActivity eff now it))
        ⟨a, ha, had⟩
      exact ⟨b, List.mem_cons_of_mem _ hb, hbd, by rw [importActivities, hv]; exact hres⟩

/-- An error out of the activity loop always names an unparsable date of
one of its rows. -/
theorem importActivities_error_elim (eff : String) (now : Nat) :
    ∀ (rows table : List ExportDailyActivity) (e : ImportError),
      importActivities eff now table rows = .error e →
      ∃ a ∈ rows, parseActivityDate a.date = none ∧ e = .invalidActivityDate a.date
  | [], _, _, h => by cases h
  | it :: rest, table, e, h => by
    rw [importActivities] at h
    cases hv : parseActivityDate it.date with
    | none =>
      rw [hv] at h
      cases h
      exact ⟨it, List.mem_cons_self it rest, hv, rfl⟩
    | some v =>
      rw [hv] at h
      obtain ⟨a, ha, had, he⟩ := importActivities_error_elim eff now rest _ e h
      exact ⟨a, List.mem_cons_of_mem _ ha, had, he⟩

/-- A successful activity loop had every date parse. -/
theorem importActivities_ok_elim (eff : String) (now : Nat) :
    ∀ (rows table out : List ExportDailyActivity),
      importActivities eff now table rows = .ok out →
      ∀ a ∈ rows, (parseActivityDate a.date).isSome
  | [], _, _, _, a, ha => absurd ha (by simp)
  | it :: rest, table, out, h, a, ha => by
    rw [importActivities] at h
    cases hv : parseActivityDate it.date with
    | none => rw [hv] at h; cases h
    | some v =>
      rw [hv] at h
      rcases List.mem_cons.mp ha with rfl | ha
      · rw [hv]; rfl
      · exact importActivities_ok_elim eff now rest _ out h a ha

/-- The store a fully successful import commits: every collection
upserted with its staged rows, the target user ensured. -/
def importedStore (eff : String) (now : Nat) (S : Store) (B : ExportBundle) : Store :=
  { users := ensureUser eff now S.users
    foodItems :=
      applyRows (fun r => r.id) foodItemsMerge S.foodItems (B.foodItems.map (stageFoodItem eff now))
    recipes :=
      applyRows (fun r => r.id) recipesMerge S.recipes (B.recipes.map (stageRecipe eff now))
    recipeIngredients :=
      applyRows (fun r => r.id) recipeIngredientsMerge S.recipeIngredients
        (B.recipeIngredients.map (stageRecipeIngredient now))
    recipePortions :=
      applyRows (fun r => r.id) recipePortionsMerge S.recipePortions
        (B.recipePortions.map (stageRecipePortion now))
    presets :=
      applyRows (fun r => r.id) presetsMerge S.presets (B.presets.map (stagePreset eff now))
    presetItems :=
      applyRows (fun r => r.id) presetItemsMerge S.presetItems
        (B.presetItems.map (stagePresetItem now))
    logEntries :=
      applyRows (fun r => r.id) logEntriesMerge S.logEntries
        (B.logEntries.map (stageLogEntry eff now))
    bodyWeights :=
      applyRows (fun r => r.id) bodyWeightsMerge S.bodyWeights
        (B.bodyWeights.map (stageBodyWeight eff now))
    dailyActivity :=
      applyRows activityKey dailyActivityMerge S.dailyActivity
        (B.dailyActivity.map (stageDailyActivity eff now)) }

/-- Success shape of the import body under valid activity dates. -/
theorem importWithUser_eq_ok (eff : String) (now : Nat) (S : Store) (B : ExportBundle)
    (h : ∀ a ∈ B.dailyActivity, (parseActivityDate a.date).isSome) :
    importWithUser eff now S B = .ok (importedStore eff now S B, stagedCount B) := by
  rw [importWithUser, importActivities_valid eff now B.dailyActivity S.dailyActivity h]
  rfl

/-- Error shape of the import body: an unparsable date aborts with that
date in the single error value. -/
theorem importWithUser_eq_error (eff : String) (now : Nat) (S : Store) (B : ExportBundle)
    (h : ∃ a ∈ B.dailyActivity, parseActivityDate a.date = none) :
    ∃ a ∈ B.dailyActivity, parseActivityDate a.date = none ∧
      importWithUser eff now S B = .error (.invalidActivityDate a.date) := by
  obtain ⟨a, ha, had, hres⟩ := importActivities_invalid eff now B.dailyActivity S.dailyActivity h
  refine ⟨a, ha, had, ?_⟩
  rw [importWithUser, hres]

/-- Any error out of the import body is an invalid-date error naming a
row of the bundle's activity array. -/
theorem importWithUser_error_elim (eff : String) (now : Nat) (S : Store) (B : ExportBundle)
    (e : ImportError) (h : importWithUser eff now S B = .error e) :
    ∃ a ∈ B.dailyActivity, parseActivityDate a.date = none ∧
      e = .invalidActivityDate a.date := by
  rw [importWithUser] at h
  cases hact : importActivities eff now S.dailyActivity B.dailyActivity with
  | error e' =>
    rw [hact] at h
    cases h
    exact importActivities_error_elim eff now B.dailyActivity S.dailyActivity e hact
  | ok out => rw [hact] at h; cases h

/-- A successful import body had every activity date parse. -/
theorem importWithUser_ok_elim (eff : String) (now : Nat) (S : Store) (B : ExportBundle)
    {out : Store × Nat} (h : importWithUser eff now S B = .ok out) :
    ∀ a ∈ B.dailyActivity, (parseActivityDate a.date).isSome := by
  rw [importWithUser] at h
  cases hact : importActivities eff now S.dailyActivity B.dailyActivity with
  | error e' => rw [hact] at h; cases h
  | ok o => exact importActivities_ok_elim eff now B.dailyActivity S.dailyActivity o hact

/-- Success of the import body pins down the committed store and count. -/
theorem importWithUser_ok_shape (eff : String) (now : Nat) (S : Store) (B : ExportBundle)
    {S' : Store} {n : Nat} (h : importWithUser eff now S B = .ok (S', n)) :
    S' = importedStore eff now S B ∧ n = stagedCount B := by
  rw [importWithUser_eq_ok eff now S B (importWithUser_ok_elim eff now S B h)] at h
  simp only [Except.ok.injEq, Prod.mk.injEq] at h
  exact ⟨h.1.symm, h.2.symm⟩

/-! ### Concrete sample data for witnesses and counterexamples -/

/-- The empty store. -/
def emptyStore : Store :=
  { users := [], foodItems := [], recipes := [], recipeIngredients := [],
    recipePortions := [], presets := [], presetItems := [], logEntries := [],
    bodyWeights := [], dailyActivity := [] }

/-- A sample stored user. -/
def sampleUser : UserRow :=
  { id := "u1", email := none, displayName := "Local User", createdAt := 1 }

/-- A sample stored food item with creation timestamp 5. -/
def oldFood : FoodItemRow :=
  { id := "f1", userID := none, name := "Old oats", brand := "", servingLabel := "100 g",
    source := "custom", caloriesPerServing := 380, proteinPerServing := 13,
    carbsPerServing := 67, fatPerServing := 6, fiberPerServing := 10, createdAt := 5 }

/-- An incoming food item with the same id and creation timestamp 9. -/
def newFood : FoodItemRow :=
  { id := "f1", userID := none, name := "New oats", brand := "B", servingLabel := "50 g",
    source := "import", caloriesPerServing := 190, proteinPerServing := 7,
    carbsPerServing := 33, fatPerServing := 3, fiberPerServing := 5, createdAt := 9 }

/-- A bundle food item carrying no owner (`user_id` empty). -/
def unownedBundleFood : ExportFoodItem :=
  { id := "f9", userID := "", name := "Pantry staple", brand := "", servingLabel := "1 serving",
    source := "custom", caloriesPerServing := 100, proteinPerServing := 2,
    carbsPerServing := 20, fatPerServing := 1, fiberPerServing := 2, createdAt := 3 }

/-- A bundle food item owned by some account. -/
def ownedBundleFood : ExportFoodItem :=
  { id := "f8", userID := "someone-else", name := "Yogurt", brand := "", servingLabel := "1 cup",
    source := "custom", caloriesPerServing := 150, proteinPerServing := 12,
    carbsPerServing := 9, fatPerServing := 8, fiberPerServing := 0, createdAt := 4 }

/-- An activity row whose date does not parse. -/
def badActivity : ExportDailyActivity :=
  { userID := "u1", date := "2024-13-01", steps := 100, activeKcalEst := 10,
    source := "manual", createdAt := 0 }

/-- An activity row with a valid (leap-day) date. -/
def goodActivity : ExportDailyActivity :=
  { userID := "u1", date := "2024-02-29", steps := 9000, activeKcalEst := 320,
    source := "manual", createdAt := 4 }

/-- An empty bundle for user `u1`. -/
def emptyBundle : ExportBundle :=
  { version := 1, exportedAt := 0, userID := "u1", foodItems := [], recipes := [],
    recipeIngredients := [], recipePortions := [], presets := [], presetItems := [],
    logEntries := [], bodyWeights := [], dailyActivity := [] }

/-! ### Claim C1 -/

/-- Claim C1: if any row of an import fails (a `daily_activity` row whose
date string does not parse as `YYYY-MM-DD`), the whole import aborts with
a single error and the observable store is exactly the one from before
the import, all collections included — rows of earlier collections
staged inside the same transaction are rolled back with it. -/
theorem import_invalid_date_atomic (S : Store) (B : ExportBundle) (q : String) (now : Nat)
    (h : ∃ a ∈ B.dailyActivity, parseActivityDate a.date = none) :
    (runImport S B q now).1 = S ∧
      ∃ d, (runImport S B q now).2 = .error (.invalidActivityDate d) := by
  obtain ⟨a, _, _, hres⟩ :=
    importWithUser_eq_error (resolveEffectiveUser q B.userID) now S B h
  rw [runImport, importTx, hres]
  exact ⟨rfl, a.date, rfl⟩

/-- A bundle staging a food item and a recipe before its unparsable
activity row. -/
def c1Bundle : ExportBundle :=
  { emptyBundle with
    foodItems := [ownedBundleFood]
    recipes := [{ id := "r1", userID := "u1", name := "Bowl", instructions := "",
                  yieldCount := 1, createdAt := 2 }]
    dailyActivity := [badActivity] }

/-- A store already holding a user and a food item. -/
def c1Store : Store :=
  { emptyStore with users := [sampleUser], foodItems := [oldFood] }

/-- Witness for C1 at a concrete store and bundle. -/
theorem import_invalid_date_atomic_witness :
    (runImport c1Store c1Bundle "" 7).1 = c1Store ∧
      ∃ d, (runImport c1Store c1Bundle "" 7).2 = .error (.invalidActivityDate d) :=
  import_invalid_date_atomic c1Store c1Bundle "" 7 (by decide)

/-! ### Claim C5 -/

/-- Claim C5: the effective user of an import is the explicitly supplied
caller parameter when non-empty, else the bundle's embedded non-empty
`user_id`, else the hard-coded single-tenant default; it is resolved
once per import and the whole transaction runs against that one value. -/
theorem effective_user_precedence (q bu : String) :
    (q ≠ "" → resolveEffectiveUser q bu = q) ∧
    (q = "" → bu ≠ "" → resolveEffectiveUser q bu = bu) ∧
    (q = "" → bu = "" → resolveEffectiveUser q bu = DefaultUserID) ∧
    (∀ (S : Store) (B : ExportBundle) (now : Nat), B.userID = bu →
      importTx S B q now = importWithUser (resolveEffectiveUser q bu) now S B) := by
  refine ⟨fun hq => ?_, fun hq hb => ?_, fun hq hb => ?_, fun S B now hB => ?_⟩
  · rw [resolveEffectiveUser, if_neg fun hc => hq hc.1, defaultQueryUser, if_neg hq]
  · rw [resolveEffectiveUser, if_pos ⟨hq, hb⟩]
  · rw [resolveEffectiveUser, if_neg fun hc => hc.2 hb, defaultQueryUser, if_pos hq]
  · rw [importTx, hB]

/-- Witness for C5: each precedence case at concrete identifiers. -/
theorem effective_user_precedence_witness :
    resolveEffectiveUser "caller" "bundleuser" = "caller" ∧
      resolveEffectiveUser "" "bundleuser" = "bundleuser" ∧
      resolveEffectiveUser "" "" = DefaultUserID :=
  ⟨(effective_user_precedence "caller" "bundleuser").1 (by decide),
   (effective_user_precedence "" "bundleuser").2.1 rfl (by decide),
   (effective_user_precedence "" "").2.2.1 rfl rfl⟩

/-! ### Claim C4 -/

/-- Counterexample to C4 as stated: on an identifier collision not every
field of the stored row is overwritten — the stored `created_at` (5)
survives, so the table does not become the incoming whole row
(`created_at` 9). -/
theorem upsert_not_whole_row_replace :
    upsertBy (fun r => r.id) foodItemsMerge [oldFood] newFood ≠ [newFood] := by
  decide

/-- Claim C4 (amended): for every collection, an incoming row with a
fresh identifier is inserted; on an identifier collision the stored row
is replaced wholesale by the incoming row except `created_at`, which
keeps the stored value (no other field-level merging; `daily_activity`
keys on `(user_id, date)`). -/
theorem upsert_overwrites_all_but_created_at :
    (∀ (S : List FoodItemRow) (row : FoodItemRow), (¬ ∃ r ∈ S, r.id = row.id) →
      upsertBy (fun r => r.id) foodItemsMerge S row = S ++ [row]) ∧
    (∀ (S : List FoodItemRow) (row : FoodItemRow), (∃ r ∈ S, r.id = row.id) →
      upsertBy (fun r => r.id) foodItemsMerge S row =
        S.map fun r => if r.id = row.id then { row with createdAt := r.createdAt } else r) ∧
    (∀ (S : List ExportRecipe) (row : ExportRecipe), (¬ ∃ r ∈ S, r.id = row.id) →
      upsertBy (fun r => r.id) recipesMerge S row = S ++ [row]) ∧
    (∀ (S : List ExportRecipe) (row : ExportRecipe), (∃ r ∈ S, r.id = row.id) →
      upsertBy (fun r => r.id) recipesMerge S row =
        S.map fun r => if r.id = row.id then { row with createdAt := r.createdAt } else r) ∧
    (∀ (S : List ExportRecipeIngredient) (row : ExportRecipeIngredient),
      (¬ ∃ r ∈ S, r.id = row.id) →
      upsertBy (fun r => r.id) recipeIngredientsMerge S row = S ++ [row]) ∧
    (∀ (S : List ExportRecipeIngredient) (row : ExportRecipeIngredient),
      (∃ r ∈ S, r.id = row.id) →
      upsertBy (fun r => r.id) recipeIngredientsMerge S row =
        S.map fun r => if r.id = row.id then { row with createdAt := r.createdAt } else r) ∧
    (∀ (S : List ExportRecipePortion) (row : ExportRecipePortion),
      (¬ ∃ r ∈ S, r.id = row.id) →
      upsertBy (fun r => r.id) recipePortionsMerge S row = S ++ [row]) ∧
    (∀ (S : List ExportRecipePortion) (row : ExportRecipePortion),
      (∃ r ∈ S, r.id = row.id) →
      upsertBy (fun r => r.id) recipePortionsMerge S row =
        S.map fun r => if r.id = row.id then { row with createdAt := r.createdAt } else r) ∧
    (∀ (S : List ExportPreset) (row : ExportPreset), (¬ ∃ r ∈ S, r.id = row.id) →
      upsertBy (fun r => r.id) presetsMerge S row = S ++ [row]) ∧
    (∀ (S : List ExportPreset) (row : ExportPreset), (∃ r ∈ S, r.id = row.id) →
      upsertBy (fun r => r.id) presetsMerge S row =
        S.map fun r => if r.id = row.id then { row with createdAt := r.createdAt } else r) ∧
    (∀ (S : List ExportPresetItem) (row : ExportPresetItem), (¬ ∃ r ∈ S, r.id = row.id) →
      upsertBy (fun r => r.id) presetItemsMerge S row = S ++ [row]) ∧
    (∀ (S : List ExportPresetItem) (row : ExportPresetItem), (∃ r ∈ S, r.id = row.id) →
      upsertBy (fun r => r.id) presetItemsMerge S row =
        S.map fun r => if r.id = row.id then { row with createdAt := r.createdAt } else r) ∧
    (∀ (S : List ExportLogEntry) (row : ExportLogEntry), (¬ ∃ r ∈ S, r.id = row.id) →
      upsertBy (fun r => r.id) logEntriesMerge S row = S ++ [row]) ∧
    (∀ (S : List ExportLogEntry) (row : ExportLogEntry), (∃ r ∈ S, r.id = row.id) →
      upsertBy (fun r => r.id) logEntriesMerge S row =
        S.map fun r => if r.id = row.id then { row with createdAt := r.createdAt } else r) ∧
    (∀ (S : List ExportBodyWeight) (row : ExportBodyWeight), (¬ ∃ r ∈ S, r.id = row.id) →
      upsertBy (fun r => r.id) bodyWeightsMerge S row = S ++ [row]) ∧
    (∀ (S : List ExportBodyWeight) (row : ExportBodyWeight), (∃ r ∈ S, r.id = row.id) →
      upsertBy (fun r => r.id) bodyWeightsMerge S row =
        S.map fun r => if r.id = row.id then { row with createdAt := r.createdAt } else r) ∧
    (∀ (S : List ExportDailyActivity) (row : ExportDailyActivity),
      (¬ ∃ r ∈ S, activityKey r = activityKey row) →
      upsertBy activityKey dailyActivityMerge S row = S ++ [row]) ∧
    (∀ (S : List ExportDailyActivity) (row : ExportDailyActivity),
      (∃ r ∈ S, activityKey r = activityKey row) →
      upsertBy activityKey dailyActivityMerge S row =
        S.map fun r =>
          if activityKey r = activityKey row then { row with createdAt := r.createdAt } else r) := by
  exact ⟨fun S row h => upsertBy_neg h, fun S row h => upsertBy_pos h,
         fun S row h => upsertBy_neg h, fun S row h => upsertBy_pos h,
         fun S row h => upsertBy_neg h, fun S row h => upsertBy_pos h,
         fun S row h => upsertBy_neg h, fun S row h => upsertBy_pos h,
         fun S row h => upsertBy_neg h, fun S row h => upsertBy_pos h,
         fun S row h => upsertBy_neg h, fun S row h => upsertBy_pos h,
         fun S row h => upsertBy_neg h, fun S row h => upsertBy_pos h,
         fun S row h => upsertBy_neg h, fun S row h => upsertBy_pos h,
         fun S row h => upsertBy_neg h, fun S row h => upsertBy_pos h⟩

/-- Witness for C4: the insert case on an empty table and the overwrite
case on a stored row, both at concrete food items. -/
theorem upsert_overwrites_all_but_created_at_witness :
    upsertBy (fun r => r.id) foodItemsMerge [] newFood = [newFood] ∧
      upsertBy (fun r => r.id) foodItemsMerge [oldFood] newFood =
        [oldFood].map fun r =>
          if r.id = newFood.id then { newFood with createdAt := r.createdAt } else r :=
  ⟨upsert_overwrites_all_but_created_at.1 [] newFood (by decide),
   upsert_overwrites_all_but_created_at.2.1 [oldFood] newFood (by decide)⟩

/-! ### Claim C8 -/

/-- A stored recipe created at time 5. -/
def c8StoredRecipe : ExportRecipe :=
  { id := "r1", userID := "u1", name := "Soup", instructions := "", yieldCount := 2,
    createdAt := 5 }

/-- A store holding that recipe. -/
def c8Store : Store :=
  { emptyStore with users := [sampleUser], recipes := [c8StoredRecipe] }

/-- A bundle carrying the same recipe with its own creation timestamp 9. -/
def c8Bundle : ExportBundle :=
  { emptyBundle with recipes := [{ c8StoredRecipe with createdAt := 9 }] }

/-- Counterexample to C8's final clause as stated: a bundle row that
carries its own creation timestamp (9) does not keep it when it
overwrites an existing row — the stored creation timestamp (5)
survives the import. -/
theorem carried_created_at_not_kept_on_overwrite :
    ((runImport c8Store c8Bundle "" 7).1.recipes.map fun r => r.createdAt) = [5] ∧
      ((runImport c8Store c8Bundle "" 7).1.recipes.map fun r => r.createdAt) ≠ [9] := by
  decide

/-- Claim C8 (amended): every missing creation / occurred-at /
measured-at timestamp is defaulted to the single shared operation `now`
(so all timestamps synthesized in one import are identical); rows that
carry their own timestamps keep them when freshly inserted, and
occurred-at / measured-at keep the carried value on overwrite too,
while an overwritten row's creation timestamp stays the stored one. -/
theorem import_shared_now_defaults (eff : String) (now : Nat) :
    (∀ it : ExportFoodItem,
      (stageFoodItem eff now it).createdAt = if it.createdAt = 0 then now else it.createdAt) ∧
    (∀ it : ExportRecipe,
      (stageRecipe eff now it).createdAt = if it.createdAt = 0 then now else it.createdAt) ∧
    (∀ it : ExportRecipeIngredient,
      (stageRecipeIngredient now it).createdAt = if it.createdAt = 0 then now else it.createdAt) ∧
    (∀ it : ExportRecipePortion,
      (stageRecipePortion now it).createdAt = if it.createdAt = 0 then now else it.createdAt) ∧
    (∀ it : ExportPreset,
      (stagePreset eff now it).createdAt = if it.createdAt = 0 then now else it.createdAt) ∧
    (∀ it : ExportPresetItem,
      (stagePresetItem now it).createdAt = if it.createdAt = 0 then now else it.createdAt) ∧
    (∀ it : ExportLogEntry,
      (stageLogEntry eff now it).createdAt = (if it.createdAt = 0 then now else it.createdAt) ∧
      (stageLogEntry eff now it).occurredAt = if it.occurredAt = 0 then now else it.occurredAt) ∧
    (∀ it : ExportBodyWeight,
      (stageBodyWeight eff now it).createdAt = (if it.createdAt = 0 then now else it.createdAt) ∧
      (stageBodyWeight eff now it).measuredAt = if it.measuredAt = 0 then now else it.measuredAt) ∧
    (∀ it : ExportDailyActivity,
      (stageDailyActivity eff now it).createdAt = if it.createdAt = 0 then now else it.createdAt) ∧
    (∀ (T : List ExportLogEntry) (it : ExportLogEntry), (¬ ∃ r ∈ T, r.id = it.id) →
      upsertBy (fun r => r.id) logEntriesMerge T (stageLogEntry eff now it) =
        T ++ [stageLogEntry eff now it]) ∧
    (∀ old new : ExportLogEntry,
      (logEntriesMerge old new).occurredAt = new.occurredAt ∧
      (logEntriesMerge old new).createdAt = old.createdAt) ∧
    (∀ old new : ExportBodyWeight,
      (bodyWeightsMerge old new).measuredAt = new.measuredAt ∧
      (bodyWeightsMerge old new).createdAt = old.createdAt) := by
  refine ⟨fun it => rfl, fun it => rfl, fun it => rfl, fun it => rfl, fun it => rfl,
    fun it => rfl, fun it => ⟨rfl, rfl⟩, fun it => ⟨rfl, rfl⟩, fun it => rfl,
    fun T it h => ?_, fun old new => ⟨rfl, rfl⟩, fun old new => ⟨rfl, rfl⟩⟩
  exact upsertBy_neg fun hc => h (by
    obtain ⟨r, hr, he⟩ := hc
    exact ⟨r, hr, he⟩)

/-- Witness for C8: a log entry with no timestamps gets both defaulted
to the shared `now` (here 7) and is inserted fresh with them. -/
theorem import_shared_now_defaults_witness :
    (stageLogEntry "u1" 7
        { id := "l1", userID := "", occurredAt := 0, kind := "food", refID := "f1",
          servings := 1, meal := "breakfast", note := "", createdAt := 0 }).occurredAt =
      (if (0 : Nat) = 0 then 7 else 0) ∧
    upsertBy (fun r => r.id) logEntriesMerge []
        (stageLogEntry "u1" 7
          { id := "l1", userID := "", occurredAt := 0, kind := "food", refID := "f1",
            servings := 1, meal := "breakfast", note := "", createdAt := 0 }) =
      [] ++ [stageLogEntry "u1" 7
        { id := "l1", userID := "", occurredAt := 0, kind := "food", refID := "f1",
          servings := 1, meal := "breakfast", note := "", createdAt := 0 }] :=
  ⟨((import_shared_now_defaults "u1" 7).2.2.2.2.2.2.1
      { id := "l1", userID := "", occurredAt := 0, kind := "food", refID := "f1",
        servings := 1, meal := "breakfast", note := "", createdAt := 0 }).2,
   (import_shared_now_defaults "u1" 7).2.2.2.2.2.2.2.2.2.1 []
      { id := "l1", userID := "", occurredAt := 0, kind := "food", refID := "f1",
        servings := 1, meal := "breakfast", note := "", createdAt := 0 } (by decide)⟩

/-! ### Owner provenance of imported rows (C6, C10) -/

theorem foodItems_owner_after (eff : String) (now : Nat) (S : Store) (B : ExportBundle) :
    ∀ f ∈ (importedStore eff now S B).foodItems,
      f ∈ S.foodItems ∨ ∃ b ∈ B.foodItems, f.id = b.id ∧
        f.userID = if b.userID = "" then none else some eff := by
  intro f hf
  rcases mem_applyRows hf with h | ⟨st, hst, h⟩
  · exact Or.inl h
  · obtain ⟨b, hb, rfl⟩ := List.mem_map.mp hst
    have howner : (stageFoodItem eff now b).userID =
        if b.userID = "" then none else some eff := by
      by_cases hbu : b.userID = ""
      · simp [stageFoodItem, hbu]
      · simp [stageFoodItem, hbu]
    rcases h with rfl | ⟨t, rfl⟩
    · exact Or.inr ⟨b, hb, rfl, howner⟩
    · exact Or.inr ⟨b, hb, rfl, howner⟩

theorem recipes_owner_after (eff : String) (now : Nat) (S : Store) (B : ExportBundle) :
    ∀ r ∈ (importedStore eff now S B).recipes, r ∈ S.recipes ∨ r.userID = eff := by
  intro r hr
  rcases mem_applyRows hr with h | ⟨st, hst, h⟩
  · exact Or.inl h
  · obtain ⟨b, _, rfl⟩ := List.mem_map.mp hst
    rcases h with rfl | ⟨t, rfl⟩
    · exact Or.inr rfl
    · exact Or.inr rfl

theorem presets_owner_after (eff : String) (now : Nat) (S : Store) (B : ExportBundle) :
    ∀ p ∈ (importedStore eff now S B).presets, p ∈ S.presets ∨ p.userID = eff := by
  intro p hp
  rcases mem_applyRows hp with h | ⟨st, hst, h⟩
  · exact Or.inl h
  · obtain ⟨b, _, rfl⟩ := List.mem_map.mp hst
    rcases h with rfl | ⟨t, rfl⟩
    · exact Or.inr rfl
    · exact Or.inr rfl

theorem logEntries_owner_after (eff : String) (now : Nat) (S : Store) (B : ExportBundle) :
    ∀ l ∈ (importedStore eff now S B).logEntries, l ∈ S.logEntries ∨ l.userID = eff := by
  intro l hl
  rcases mem_applyRows hl with h | ⟨st, hst, h⟩
  · exact Or.inl h
  · obtain ⟨b, _, rfl⟩ := List.mem_map.mp hst
    rcases h with rfl | ⟨t, rfl⟩
    · exact Or.inr rfl
    · exact Or.inr rfl

theorem bodyWeights_owner_after (eff : String) (now : Nat) (S : Store) (B : ExportBundle) :
    ∀ w ∈ (importedStore eff now S B).bodyWeights, w ∈ S.bodyWeights ∨ w.userID = eff := by
  intro w hw
  rcases mem_applyRows hw with h | ⟨st, hst, h⟩
  · exact Or.inl h
  · obtain ⟨b, _, rfl⟩ := List.mem_map.mp hst
    rcases h with rfl | ⟨t, rfl⟩
    · exact Or.inr rfl
    · exact Or.inr rfl

theorem dailyActivity_owner_after (eff : String) (now : Nat) (S : Store) (B : ExportBundle) :
    ∀ a ∈ (importedStore eff now S B).dailyActivity,
      a ∈ S.dailyActivity ∨ a.userID = eff := by
  intro a ha
  rcases mem_applyRows ha with h | ⟨st, hst, h⟩
  · exact Or.inl h
  · obtain ⟨b, _, rfl⟩ := List.mem_map.mp hst
    rcases h with rfl | ⟨t, rfl⟩
    · exact Or.inr rfl
    · exact Or.inr rfl

/-! ### Claim C6 -/

/-- A bundle with no embedded user and one unowned food item. -/
def c6Bundle : ExportBundle :=
  { emptyBundle with userID := "", foodItems := [unownedBundleFood] }

/-- Counterexample to C6 as stated: importing for requested user `u1`,
the food-item row is written with a `NULL` owner, not with the
effective user id — so not every owned collection's row carries the
effective user. -/
theorem unowned_food_not_remapped :
    ((runImport emptyStore c6Bundle "u1" 4).1.foodItems.map fun f => f.userID) = [none] ∧
      ¬ ∀ f ∈ (runImport emptyStore c6Bundle "u1" 4).1.foodItems,
          f.userID = some (resolveEffectiveUser "u1" c6Bundle.userID) := by
  decide

/-- Claim C6 (amended): before any rows are committed a `users` row with
the effective id exists (created as the placeholder when absent, with
existing rows untouched), and every row a successful import adds or
rewrites carries the effective user id — except food items, whose owner
is the effective user only when the bundle row carried a non-empty
`user_id` and `NULL` otherwise. -/
theorem import_user_remap (S : Store) (B : ExportBundle) (q : String) (now : Nat)
    (S' : Store) (n : Nat) (h : importTx S B q now = .ok (S', n)) :
    (∃ u ∈ S'.users, u.id = resolveEffectiveUser q B.userID) ∧
    (∀ u ∈ S'.users, u ∈ S.users ∨ u = placeholderUser (resolveEffectiveUser q B.userID) now) ∧
    (∀ r ∈ S'.recipes, r ∈ S.recipes ∨ r.userID = resolveEffectiveUser q B.userID) ∧
    (∀ p ∈ S'.presets, p ∈ S.presets ∨ p.userID = resolveEffectiveUser q B.userID) ∧
    (∀ l ∈ S'.logEntries, l ∈ S.logEntries ∨ l.userID = resolveEffectiveUser q B.userID) ∧
    (∀ w ∈ S'.bodyWeights, w ∈ S.bodyWeights ∨ w.userID = resolveEffectiveUser q B.userID) ∧
    (∀ a ∈ S'.dailyActivity, a ∈ S.dailyActivity ∨ a.userID = resolveEffectiveUser q B.userID) ∧
    (∀ f ∈ S'.foodItems, f ∈ S.foodItems ∨ f.userID = none ∨
      f.userID = some (resolveEffectiveUser q B.userID)) := by
  obtain ⟨rfl, -⟩ := importWithUser_ok_shape (resolveEffectiveUser q B.userID) now S B h
  set eff := resolveEffectiveUser q B.userID with heff
  refine ⟨?_, ?_, recipes_owner_after eff now S B, presets_owner_after eff now S B,
    logEntries_owner_after eff now S B, bodyWeights_owner_after eff now S B,
    dailyActivity_owner_after eff now S B, ?_⟩
  · obtain ⟨u, hu, he⟩ := List.mem_map.mp
      (@self_mem_map_k_upsertBy UserRow String _ (fun u => u.id) usersMergeNothing
        (fun x y hxy => hxy) S.users (placeholderUser eff now))
    exact ⟨u, hu, he⟩
  · intro u hu
    by_cases hmem : ∃ r ∈ S.users, r.id = eff
    · have : (importedStore eff now S B).users = S.users :=
        upsertBy_do_nothing (fun _ _ => rfl) hmem
      rw [this] at hu
      exact Or.inl hu
    · have : (importedStore eff now S B).users = S.users ++ [placeholderUser eff now] :=
        upsertBy_neg hmem
      rw [this] at hu
      rcases List.mem_append.mp hu with hu | hu
      · exact Or.inl hu
      · exact Or.inr (List.mem_singleton.mp hu)
  · intro f hf
    rcases foodItems_owner_after eff now S B f hf with h | ⟨b, _, _, howner⟩
    · exact Or.inl h
    · by_cases hbu : b.userID = ""
      · rw [if_pos hbu] at howner
        exact Or.inr (Or.inl howner)
      · rw [if_neg hbu] at howner
        exact Or.inr (Or.inr howner)

/-- A bundle embedding one user id, with an owned food item, a recipe
and a log entry. -/
def c6wBundle : ExportBundle :=
  { emptyBundle with
    userID := "orig-user"
    foodItems := [ownedBundleFood]
    recipes := [{ id := "r2", userID := "orig-user", name := "Stew", instructions := "",
                  yieldCount := 3, createdAt := 2 }]
    logEntries := [{ id := "l2", userID := "orig-user", occurredAt := 6, kind := "food",
                     refID := "f8", servings := 2, meal := "lunch", note := "",
                     createdAt := 6 }] }

/-- The store committed by importing that bundle for requested user `u2`. -/
def c6wResult : Store := (runImport emptyStore c6wBundle "u2" 3).1

/-- Witness for C6 at a concrete remapping import. -/
theorem import_user_remap_witness :
    (∃ u ∈ c6wResult.users, u.id = resolveEffectiveUser "u2" c6wBundle.userID) ∧
    (∀ u ∈ c6wResult.users,
      u ∈ emptyStore.users ∨ u = placeholderUser (resolveEffectiveUser "u2" c6wBundle.userID) 3) ∧
    (∀ r ∈ c6wResult.recipes,
      r ∈ emptyStore.recipes ∨ r.userID = resolveEffectiveUser "u2" c6wBundle.userID) ∧
    (∀ p ∈ c6wResult.presets,
      p ∈ emptyStore.presets ∨ p.userID = resolveEffectiveUser "u2" c6wBundle.userID) ∧
    (∀ l ∈ c6wResult.logEntries,
      l ∈ emptyStore.logEntries ∨ l.userID = resolveEffectiveUser "u2" c6wBundle.userID) ∧
    (∀ w ∈ c6wResult.bodyWeights,
      w ∈ emptyStore.bodyWeights ∨ w.userID = resolveEffectiveUser "u2" c6wBundle.userID) ∧
    (∀ a ∈ c6wResult.dailyActivity,
      a ∈ emptyStore.dailyActivity ∨ a.userID = resolveEffectiveUser "u2" c6wBundle.userID) ∧
    (∀ f ∈ c6wResult.foodItems, f ∈ emptyStore.foodItems ∨ f.userID = none ∨
      f.userID = some (resolveEffectiveUser "u2" c6wBundle.userID)) :=
  import_user_remap emptyStore c6wBundle "u2" 3 c6wResult (stagedCount c6wBundle) (by decide)

/-! ### Claim C10 -/

/-- Claim C10: a food-item row whose bundle `user_id` is empty is
written with a `NULL` owner rather than being remapped; only food-item
rows carrying a non-empty bundle `user_id` receive the effective user,
while every other owned collection's written rows carry the effective
user unconditionally. -/
theorem food_item_owner_remap (S : Store) (B : ExportBundle) (q : String) (now : Nat)
    (S' : Store) (n : Nat) (h : importTx S B q now = .ok (S', n)) :
    (∀ f ∈ S'.foodItems, f ∈ S.foodItems ∨ ∃ b ∈ B.foodItems, f.id = b.id ∧
      f.userID = if b.userID = "" then none else some (resolveEffectiveUser q B.userID)) ∧
    (∀ r ∈ S'.recipes, r ∈ S.recipes ∨ r.userID = resolveEffectiveUser q B.userID) ∧
    (∀ p ∈ S'.presets, p ∈ S.presets ∨ p.userID = resolveEffectiveUser q B.userID) ∧
    (∀ l ∈ S'.logEntries, l ∈ S.logEntries ∨ l.userID = resolveEffectiveUser q B.userID) ∧
    (∀ w ∈ S'.bodyWeights, w ∈ S.bodyWeights ∨ w.userID = resolveEffectiveUser q B.userID) ∧
    (∀ a ∈ S'.dailyActivity, a ∈ S.dailyActivity ∨
      a.userID = resolveEffectiveUser q B.userID) := by
  obtain ⟨rfl, -⟩ := importWithUser_ok_shape (resolveEffectiveUser q B.userID) now S B h
  set eff := resolveEffectiveUser q B.userID with heff
  exact ⟨foodItems_owner_after eff now S B, recipes_owner_after eff now S B,
    presets_owner_after eff now S B, logEntries_owner_after eff now S B,
    bodyWeights_owner_after eff now S B, dailyActivity_owner_after eff now S B⟩

/-- A bundle with no embedded user, one unowned and one owned food item. -/
def c10wBundle : ExportBundle :=
  { emptyBundle with userID := "", foodItems := [unownedBundleFood, ownedBundleFood] }

/-- The store committed by importing that bundle for requested user `u1`. -/
def c10wResult : Store := (runImport emptyStore c10wBundle "u1" 6).1

/-- Witness for C10 at a concrete import mixing unowned and owned food
items. -/
theorem food_item_owner_remap_witness :
    (∀ f ∈ c10wResult.foodItems, f ∈ emptyStore.foodItems ∨
      ∃ b ∈ c10wBundle.foodItems, f.id = b.id ∧
        f.userID = if b.userID = "" then none
          else some (resolveEffectiveUser "u1" c10wBundle.userID)) ∧
    (∀ r ∈ c10wResult.recipes, r ∈ emptyStore.recipes ∨
      r.userID = resolveEffectiveUser "u1" c10wBundle.userID) ∧
    (∀ p ∈ c10wResult.presets, p ∈ emptyStore.presets ∨
      p.userID = resolveEffectiveUser "u1" c10wBundle.userID) ∧
    (∀ l ∈ c10wResult.logEntries, l ∈ emptyStore.logEntries ∨
      l.userID = resolveEffectiveUser "u1" c10wBundle.userID) ∧
    (∀ w ∈ c10wResult.bodyWeights, w ∈ emptyStore.bodyWeights ∨
      w.userID = resolveEffectiveUser "u1" c10wBundle.userID) ∧
    (∀ a ∈ c10wResult.dailyActivity, a ∈ emptyStore.dailyActivity ∨
      a.userID = resolveEffectiveUser "u1" c10wBundle.userID) :=
  food_item_owner_remap emptyStore c10wBundle "u1" 6 c10wResult (stagedCount c10wBundle)
    (by decide)

/-! ### Claim C9 -/

/-- A bundle whose only row is the unparsable activity row. -/
def c9B1 : ExportBundle := { emptyBundle with dailyActivity := [badActivity] }

/-- A bundle that stages one food item before the same unparsable
activity row. -/
def c9B2 : ExportBundle :=
  { emptyBundle with foodItems := [ownedBundleFood], dailyActivity := [badActivity] }

/-- Counterexample to C9 as stated: two imports that stage different
numbers of rows before aborting on the same bad date return literally
identical error values, so the error cannot report the count of rows
staged before the abort. -/
theorem import_error_lacks_staged_count :
    (runImport emptyStore c9B1 "" 1).2 = (runImport emptyStore c9B2 "" 1).2 ∧
      c9B1.foodItems.length = 0 ∧ c9B2.foodItems.length = 1 := by
  decide

/-- Claim C9 (amended): on a row-level failure the caller receives
exactly one error value that identifies the failing collection and row
(the activity row's offending date string), and never a
partially-succeeded result — the observable store is the pre-import
one; the error does not carry the count of rows staged before the
abort. -/
theorem import_single_error_identifies_failure (S : Store) (B : ExportBundle) (q : String)
    (now : Nat) (e : ImportError) (h : (runImport S B q now).2 = .error e) :
    (runImport S B q now).1 = S ∧
      ∃ a ∈ B.dailyActivity, parseActivityDate a.date = none ∧
        e = .invalidActivityDate a.date := by
  rcases him : importTx S B q now with e' | ⟨S₁, n⟩
  · have hrun : runImport S B q now = (S, .error e') := by
      unfold runImport
      rw [him]
    rw [hrun] at h
    injection h with he
    subst he
    exact ⟨by rw [hrun], importWithUser_error_elim (resolveEffectiveUser q B.userID) now S B e'
      (by rw [← importTx]; exact him)⟩
  · have hrun : runImport S B q now = (S₁, .ok n) := by
      unfold runImport
      rw [him]
    rw [hrun] at h
    exact absurd h (by simp)

/-- Witness for C9 at the concrete aborting import. -/
theorem import_single_error_identifies_failure_witness :
    (runImport emptyStore c9B2 "" 1).1 = emptyStore ∧
      ∃ a ∈ c9B2.dailyActivity, parseActivityDate a.date = none ∧
        ImportError.invalidActivityDate badActivity.date = .invalidActivityDate a.date :=
  import_single_error_identifies_failure emptyStore c9B2 "" 1
    (.invalidActivityDate badActivity.date) (by decide)

/-! ### Claim C7 -/

/-- The entity-collection tags of the bundle's arrays. -/
inductive CollectionTag where
  | foodItems
  | recipes
  | recipeIngredients
  | recipePortions
  | presets
  | presetItems
  | logEntries
  | bodyWeights
  | dailyActivity
deriving DecidableEq

/-- One named array of the bundle document, as the decoder receives
them in whatever order the document lists them. -/
inductive BundleSection where
  | foodItems (rows : List ExportFoodItem)
  | recipes (rows : List ExportRecipe)
  | recipeIngredients (rows : List ExportRecipeIngredient)
  | recipePortions (rows : List ExportRecipePortion)
  | presets (rows : List ExportPreset)
  | presetItems (rows : List ExportPresetItem)
  | logEntries (rows : List ExportLogEntry)
  | bodyWeights (rows : List ExportBodyWeight)
  | dailyActivity (rows : List ExportDailyActivity)
deriving DecidableEq

/-- The collection a section populates. -/
def sectionTag : BundleSection → CollectionTag
  | .foodItems _ => .foodItems
  | .recipes _ => .recipes
  | .recipeIngredients _ => .recipeIngredients
  | .recipePortions _ => .recipePortions
  | .presets _ => .presets
  | .presetItems _ => .presetItems
  | .logEntries _ => .logEntries
  | .bodyWeights _ => .bodyWeights
  | .dailyActivity _ => .dailyActivity

/-- Setting one named array of the decoded bundle (what the JSON
decoder does for each key it encounters, last occurrence winning). -/
def setSection (B : ExportBundle) : BundleSection → ExportBundle
  | .foodItems rows => { B with foodItems := rows }
  | .recipes rows => { B with recipes := rows }
  | .recipeIngredients rows => { B with recipeIngredients := rows }
  | .recipePortions rows => { B with recipePortions := rows }
  | .presets rows => { B with presets := rows }
  | .presetItems rows => { B with presetItems := rows }
  | .logEntries rows => { B with logEntries := rows }
  | .bodyWeights rows => { B with bodyWeights := rows }
  | .dailyActivity rows => { B with dailyActivity := rows }

/-- Decoding a document whose arrays arrive in a given order: fold the
sections over a base bundle carrying the scalar fields. -/
def decodeSections (B₀ : ExportBundle) (ss : List BundleSection) : ExportBundle :=
  ss.foldl setSection B₀

theorem setSection_comm (B : ExportBundle) (s₁ s₂ : BundleSection)
    (h : sectionTag s₁ ≠ sectionTag s₂) :
    setSection (setSection B s₁) s₂ = setSection (setSection B s₂) s₁ := by
  cases s₁ <;> cases s₂ <;> first | rfl | exact absurd rfl h

theorem foldl_comm_out {γ β : Type} {f : γ → β → γ} {l : List β} {a : β}
    (h : ∀ x ∈ l, ∀ b, f (f b x) a = f (f b a) x) :
    ∀ b, f (List.foldl f b l) a = List.foldl f (f b a) l := by
  induction l with
  | nil => intro b; rfl
  | cons x l ih =>
    intro b
    rw [List.foldl_cons, List.foldl_cons,
      ih fun y hy b' => h y (List.mem_cons_of_mem _ hy) b', h x (List.mem_cons_self _ _) b]

theorem foldl_reverse_of_comm {γ β : Type} {f : γ → β → γ} {l : List β}
    (h : ∀ x ∈ l, ∀ y ∈ l, ∀ b, f (f b x) y = f (f b y) x) :
    ∀ b, List.foldl f b l.reverse = List.foldl f b l := by
  induction l with
  | nil => intro b; rfl
  | cons x l ih =>
    intro b
    rw [List.reverse_cons, List.foldl_append, List.foldl_cons, List.foldl_nil,
      ih (fun y hy z hz b' =>
        h y (List.mem_cons_of_mem _ hy) z (List.mem_cons_of_mem _ hz) b') b,
      List.foldl_cons]
    exact foldl_comm_out
      (fun y hy b' =>
        h y (List.mem_cons_of_mem _ hy) x (List.mem_cons_self _ _) b') b

/-- A document listing each array at most once decodes the same bundle
whatever the order of its sections. -/
theorem decodeSections_reverse (B₀ : ExportBundle) (ss : List BundleSection)
    (h : (ss.map sectionTag).Nodup) :
    decodeSections B₀ ss.reverse = decodeSections B₀ ss := by
  apply foldl_reverse_of_comm
  intro x hx y hy b
  by_cases hxy : x = y
  · subst hxy; rfl
  · exact setSection_comm b x y fun hc => hxy (List.inj_on_of_nodup_map h hx hy hc)

/-- Claim C7: the import applies collections in its own fixed
dependency order, so the order in which the document supplies its
arrays is irrelevant — a bundle decoded from reversed sections imports
to the same result (and succeeds exactly when the forward order does). -/
theorem import_section_order_irrelevant (S : Store) (B₀ : ExportBundle)
    (ss : List BundleSection) (q : String) (now : Nat)
    (h : (ss.map sectionTag).Nodup) :
    importTx S (decodeSections B₀ ss.reverse) q now =
      importTx S (decodeSections B₀ ss) q now := by
  rw [decodeSections_reverse B₀ ss h]

/-- Sections for a document carrying three arrays, listed in an order
unlike the engine's write order. -/
def c7Sections : List BundleSection :=
  [.dailyActivity [goodActivity],
   .recipes [{ id := "r1", userID := "u1", name := "Soup", instructions := "",
               yieldCount := 2, createdAt := 5 }],
   .foodItems [ownedBundleFood]]

/-- Witness for C7 at a concrete three-section document. -/
theorem import_section_order_irrelevant_witness :
    importTx emptyStore (decodeSections emptyBundle c7Sections.reverse) "" 2 =
      importTx emptyStore (decodeSections emptyBundle c7Sections) "" 2 :=
  import_section_order_irrelevant emptyStore emptyBundle c7Sections "" 2 (by decide)

/-! ### Claim C2 -/

/-- Pointwise relation between two maps of the same list. -/
theorem forall₂_map_map {α β : Type} {R : β → β → Prop} {f g : α → β} :
    ∀ {l : List α}, (∀ b ∈ l, R (g b) (f b)) → List.Forall₂ R (l.map g) (l.map f)
  | [], _ => .nil
  | x :: l, h =>
    .cons (h x (List.mem_cons_self x l))
      (forall₂_map_map fun b hb => h b (List.mem_cons_of_mem _ hb))

/-- Keys of rows staged from the same bundle list are present after the
first pass, whatever operation timestamp each pass used. -/
theorem staged_keys_mem {α β κ : Type} [DecidableEq κ] {k : β → κ} {merge : β → β → β}
    (hK : ∀ x y, k x = k y → k (merge x y) = k y)
    {f g : α → β} (hfg : ∀ b, k (g b) = k (f b)) (S : List β) (l : List α) :
    ∀ r ∈ l.map g, k r ∈ (applyRows k merge S (l.map f)).map k := by
  intro r hr
  obtain ⟨b, hb, rfl⟩ := List.mem_map.mp hr
  rw [hfg b]
  exact key_mem_map_k_applyRows hK (List.mem_map_of_mem f hb)

/-- Field-wise extensionality for stores. -/
theorem storeExt {a b : Store}
    (h1 : a.users = b.users) (h2 : a.foodItems = b.foodItems) (h3 : a.recipes = b.recipes)
    (h4 : a.recipeIngredients = b.recipeIngredients)
    (h5 : a.recipePortions = b.recipePortions) (h6 : a.presets = b.presets)
    (h7 : a.presetItems = b.presetItems) (h8 : a.logEntries = b.logEntries)
    (h9 : a.bodyWeights = b.bodyWeights) (h10 : a.dailyActivity = b.dailyActivity) :
    a = b := by
  cases a; cases b
  simp only [Store.mk.injEq]
  exact ⟨h1, h2, h3, h4, h5, h6, h7, h8, h9, h10⟩

/-! Per-collection key and merge laws, stated concretely so that the
generic upsert lemmas instantiate without guesswork. -/

theorem foodK : ∀ x y : FoodItemRow, x.id = y.id → (foodItemsMerge x y).id = y.id :=
  fun _ _ _ => rfl

theorem foodA : ∀ x y z : FoodItemRow, x.id = y.id → y.id = z.id →
    foodItemsMerge (foodItemsMerge x y) z = foodItemsMerge x z :=
  fun _ _ _ _ _ => rfl

theorem foodI : ∀ x : FoodItemRow, foodItemsMerge x x = x := fun _ => rfl

theorem recipeK : ∀ x y : ExportRecipe, x.id = y.id → (recipesMerge x y).id = y.id :=
  fun _ _ _ => rfl

theorem recipeA : ∀ x y z : ExportRecipe, x.id = y.id → y.id = z.id →
    recipesMerge (recipesMerge x y) z = recipesMerge x z :=
  fun _ _ _ _ _ => rfl

theorem recipeI : ∀ x : ExportRecipe, recipesMerge x x = x := fun _ => rfl

theorem ingredientK : ∀ x y : ExportRecipeIngredient, x.id = y.id →
    (recipeIngredientsMerge x y).id = y.id :=
  fun _ _ _ => rfl

theorem ingredientA : ∀ x y z : ExportRecipeIngredient, x.id = y.id → y.id = z.id →
    recipeIngredientsMerge (recipeIngredientsMerge x y) z = recipeIngredientsMerge x z :=
  fun _ _ _ _ _ => rfl

theorem ingredientI : ∀ x : ExportRecipeIngredient, recipeIngredientsMerge x x = x :=
  fun _ => rfl

theorem portionK : ∀ x y : ExportRecipePortion, x.id = y.id →
    (recipePortionsMerge x y).id = y.id :=
  fun _ _ _ => rfl

theorem portionA : ∀ x y z : ExportRecipePortion, x.id = y.id → y.id = z.id →
    recipePortionsMerge (recipePortionsMerge x y) z = recipePortionsMerge x z :=
  fun _ _ _ _ _ => rfl

theorem portionI : ∀ x : ExportRecipePortion, recipePortionsMerge x x = x := fun _ => rfl

theorem presetK : ∀ x y : ExportPreset, x.id = y.id → (presetsMerge x y).id = y.id :=
  fun _ _ _ => rfl

theorem presetA : ∀ x y z : ExportPreset, x.id = y.id → y.id = z.id →
    presetsMerge (presetsMerge x y) z = presetsMerge x z :=
  fun _ _ _ _ _ => rfl

theorem presetI : ∀ x : ExportPreset, presetsMerge x x = x := fun _ => rfl

theorem presetItemK : ∀ x y : ExportPresetItem, x.id = y.id →
    (presetItemsMerge x y).id = y.id :=
  fun _ _ _ => rfl

theorem presetItemA : ∀ x y z : ExportPresetItem, x.id = y.id → y.id = z.id →
    presetItemsMerge (presetItemsMerge x y) z = presetItemsMerge x z :=
  fun _ _ _ _ _ => rfl

theorem presetItemI : ∀ x : ExportPresetItem, presetItemsMerge x x = x := fun _ => rfl

theorem logK : ∀ x y : ExportLogEntry, x.id = y.id → (logEntriesMerge x y).id = y.id :=
  fun _ _ _ => rfl

theorem logA : ∀ x y z : ExportLogEntry, x.id = y.id → y.id = z.id →
    logEntriesMerge (logEntriesMerge x y) z = logEntriesMerge x z :=
  fun _ _ _ _ _ => rfl

theorem logI : ∀ x : ExportLogEntry, logEntriesMerge x x = x := fun _ => rfl

theorem weightK : ∀ x y : ExportBodyWeight, x.id = y.id → (bodyWeightsMerge x y).id = y.id :=
  fun _ _ _ => rfl

theorem weightA : ∀ x y z : ExportBodyWeight, x.id = y.id → y.id = z.id →
    bodyWeightsMerge (bodyWeightsMerge x y) z = bodyWeightsMerge x z :=
  fun _ _ _ _ _ => rfl

theorem weightI : ∀ x : ExportBodyWeight, bodyWeightsMerge x x = x := fun _ => rfl

theorem activityK : ∀ x y : ExportDailyActivity, activityKey x = activityKey y →
    activityKey (dailyActivityMerge x y) = activityKey y :=
  fun _ _ _ => rfl

theorem activityA : ∀ x y z : ExportDailyActivity,
    activityKey x = activityKey y → activityKey y = activityKey z →
    dailyActivityMerge (dailyActivityMerge x y) z = dailyActivityMerge x z :=
  fun _ _ _ _ _ => rfl

theorem activityI : ∀ x : ExportDailyActivity, dailyActivityMerge x x = x := fun _ => rfl

theorem userK : ∀ x y : UserRow, x.id = y.id → (usersMergeNothing x y).id = y.id :=
  fun _ _ h => h

/-! Staged rows of the same bundle row agree on their key (and, except
for a log entry's occurred-at and a body weight's measured-at, merge
identically into any stored row) across operation timestamps. -/

theorem foodStagedEquiv (eff : String) (n₁ n₂ : Nat) : ∀ b : ExportFoodItem,
    MergeEquiv (fun r : FoodItemRow => r.id) foodItemsMerge
      (stageFoodItem eff n₂ b) (stageFoodItem eff n₁ b) :=
  fun _ => ⟨rfl, fun _ => rfl⟩

theorem recipeStagedEquiv (eff : String) (n₁ n₂ : Nat) : ∀ b : ExportRecipe,
    MergeEquiv (fun r : ExportRecipe => r.id) recipesMerge
      (stageRecipe eff n₂ b) (stageRecipe eff n₁ b) :=
  fun _ => ⟨rfl, fun _ => rfl⟩

theorem ingredientStagedEquiv (n₁ n₂ : Nat) : ∀ b : ExportRecipeIngredient,
    MergeEquiv (fun r : ExportRecipeIngredient => r.id) recipeIngredientsMerge
      (stageRecipeIngredient n₂ b) (stageRecipeIngredient n₁ b) :=
  fun _ => ⟨rfl, fun _ => rfl⟩

theorem portionStagedEquiv (n₁ n₂ : Nat) : ∀ b : ExportRecipePortion,
    MergeEquiv (fun r : ExportRecipePortion => r.id) recipePortionsMerge
      (stageRecipePortion n₂ b) (stageRecipePortion n₁ b) :=
  fun _ => ⟨rfl, fun _ => rfl⟩

theorem presetStagedEquiv (eff : String) (n₁ n₂ : Nat) : ∀ b : ExportPreset,
    MergeEquiv (fun r : ExportPreset => r.id) presetsMerge
      (stagePreset eff n₂ b) (stagePreset eff n₁ b) :=
  fun _ => ⟨rfl, fun _ => rfl⟩

theorem presetItemStagedEquiv (n₁ n₂ : Nat) : ∀ b : ExportPresetItem,
    MergeEquiv (fun r : ExportPresetItem => r.id) presetItemsMerge
      (stagePresetItem n₂ b) (stagePresetItem n₁ b) :=
  fun _ => ⟨rfl, fun _ => rfl⟩

theorem logStagedKey (eff : String) (n₁ n₂ : Nat) : ∀ b : ExportLogEntry,
    (stageLogEntry eff n₂ b).id = (stageLogEntry eff n₁ b).id :=
  fun _ => rfl

theorem weightStagedKey (eff : String) (n₁ n₂ : Nat) : ∀ b : ExportBodyWeight,
    (stageBodyWeight eff n₂ b).id = (stageBodyWeight eff n₁ b).id :=
  fun _ => rfl

theorem logStagedEquiv (eff : String) (n₁ n₂ : Nat) (b : ExportLogEntry)
    (h : b.occurredAt ≠ 0) :
    MergeEquiv (fun r : ExportLogEntry => r.id) logEntriesMerge
      (stageLogEntry eff n₂ b) (stageLogEntry eff n₁ b) :=
  ⟨rfl, fun t => by simp [logEntriesMerge, stageLogEntry, if_neg h]⟩

theorem weightStagedEquiv (eff : String) (n₁ n₂ : Nat) (b : ExportBodyWeight)
    (h : b.measuredAt ≠ 0) :
    MergeEquiv (fun r : ExportBodyWeight => r.id) bodyWeightsMerge
      (stageBodyWeight eff n₂ b) (stageBodyWeight eff n₁ b) :=
  ⟨rfl, fun t => by simp [bodyWeightsMerge, stageBodyWeight, if_neg h]⟩

theorem activityStagedEquiv (eff : String) (n₁ n₂ : Nat) : ∀ b : ExportDailyActivity,
    MergeEquiv activityKey dailyActivityMerge
      (stageDailyActivity eff n₂ b) (stageDailyActivity eff n₁ b) :=
  fun _ => ⟨rfl, fun _ => rfl⟩

/-- A bundle with one log entry that carries no occurred-at timestamp. -/
def c2cexBundle : ExportBundle :=
  { emptyBundle with
    logEntries := [{ id := "l1", userID := "u1", occurredAt := 0, kind := "food",
                     refID := "f1", servings := 1, meal := "breakfast", note := "",
                     createdAt := 0 }] }

/-- Counterexample to C2 as stated: for a bundle with a log entry whose
occurred-at is missing, importing twice (the second import running at a
later operation `now`) does not yield the same row contents as
a single import — the second import re-defaults `occurred_at` to its
own `now` and the `DO UPDATE` writes it. -/
theorem import_replay_not_always_identity :
    (runImport (runImport emptyStore c2cexBundle "" 1).1 c2cexBundle "" 2).1 ≠
      (runImport emptyStore c2cexBundle "" 1).1 := by
  decide

/-- Claim C2 (amended): replaying a bundle after a successful import
always succeeds with the same reported row count and never changes any
collection's row count (no identifier-keyed or `(user,date)`-keyed row
is duplicated); and when every log entry carries its occurred-at and
every body weight its measured-at (as in any exported bundle), the
replayed store is identical to the once-imported store whatever the
two operation timestamps were. -/
theorem import_replay_idempotent (S : Store) (B : ExportBundle) (q : String)
    (n₁ n₂ : Nat) (S₁ : Store) (c₁ : Nat)
    (h₁ : importTx S B q n₁ = .ok (S₁, c₁)) :
    ∃ S₂ : Store, importTx S₁ B q n₂ = .ok (S₂, c₁) ∧
      (S₂.users.length = S₁.users.length ∧
       S₂.foodItems.length = S₁.foodItems.length ∧
       S₂.recipes.length = S₁.recipes.length ∧
       S₂.recipeIngredients.length = S₁.recipeIngredients.length ∧
       S₂.recipePortions.length = S₁.recipePortions.length ∧
       S₂.presets.length = S₁.presets.length ∧
       S₂.presetItems.length = S₁.presetItems.length ∧
       S₂.logEntries.length = S₁.logEntries.length ∧
       S₂.bodyWeights.length = S₁.bodyWeights.length ∧
       S₂.dailyActivity.length = S₁.dailyActivity.length) ∧
      ((∀ l ∈ B.logEntries, l.occurredAt ≠ 0) →
        (∀ w ∈ B.bodyWeights, w.measuredAt ≠ 0) → S₂ = S₁) := by
  obtain ⟨rfl, rfl⟩ :=
    importWithUser_ok_shape (resolveEffectiveUser q B.userID) n₁ S B h₁
  set eff := resolveEffectiveUser q B.userID with heff
  have hvalid : ∀ a ∈ B.dailyActivity, (parseActivityDate a.date).isSome :=
    importWithUser_ok_elim eff n₁ S B h₁
  have husers_mem :
      ∃ r ∈ (importedStore eff n₁ S B).users, r.id = (placeholderUser eff n₂).id := by
    obtain ⟨u, hu, he⟩ := List.mem_map.mp
      (@self_mem_map_k_upsertBy UserRow String _ (fun u => u.id) usersMergeNothing
        (fun x y hxy => hxy) S.users (placeholderUser eff n₁))
    exact ⟨u, hu, he⟩
  refine ⟨importedStore eff n₂ (importedStore eff n₁ S B) B,
    importWithUser_eq_ok eff n₂ (importedStore eff n₁ S B) B hvalid, ?_, ?_⟩
  · simp only [importedStore]
    refine ⟨length_upsertBy_pos husers_mem, ?_, ?_, ?_, ?_, ?_, ?_, ?_, ?_, ?_⟩
    · exact length_applyRows_of_keys foodK
        (staged_keys_mem foodK (fun b => (foodStagedEquiv eff n₁ n₂ b).1)
          S.foodItems B.foodItems)
    · exact length_applyRows_of_keys recipeK
        (staged_keys_mem recipeK (fun b => (recipeStagedEquiv eff n₁ n₂ b).1)
          S.recipes B.recipes)
    · exact length_applyRows_of_keys ingredientK
        (staged_keys_mem ingredientK (fun b => (ingredientStagedEquiv n₁ n₂ b).1)
          S.recipeIngredients B.recipeIngredients)
    · exact length_applyRows_of_keys portionK
        (staged_keys_mem portionK (fun b => (portionStagedEquiv n₁ n₂ b).1)
          S.recipePortions B.recipePortions)
    · exact length_applyRows_of_keys presetK
        (staged_keys_mem presetK (fun b => (presetStagedEquiv eff n₁ n₂ b).1)
          S.presets B.presets)
    · exact length_applyRows_of_keys presetItemK
        (staged_keys_mem presetItemK (fun b => (presetItemStagedEquiv n₁ n₂ b).1)
          S.presetItems B.presetItems)
    · exact length_applyRows_of_keys logK
        (staged_keys_mem logK (logStagedKey eff n₁ n₂) S.logEntries B.logEntries)
    · exact length_applyRows_of_keys weightK
        (staged_keys_mem weightK (weightStagedKey eff n₁ n₂) S.bodyWeights B.bodyWeights)
    · exact length_applyRows_of_keys activityK
        (staged_keys_mem activityK (fun b => (activityStagedEquiv eff n₁ n₂ b).1)
          S.dailyActivity B.dailyActivity)
  · intro hL hW
    refine storeExt ?_ ?_ ?_ ?_ ?_ ?_ ?_ ?_ ?_ ?_ <;> simp only [importedStore]
    · exact upsertBy_do_nothing (fun _ _ => rfl) husers_mem
    · exact applyRows_replay foodK foodA foodI
        (forall₂_map_map fun b _ => foodStagedEquiv eff n₁ n₂ b)
    · exact applyRows_replay recipeK recipeA recipeI
        (forall₂_map_map fun b _ => recipeStagedEquiv eff n₁ n₂ b)
    · exact applyRows_replay ingredientK ingredientA ingredientI
        (forall₂_map_map fun b _ => ingredientStagedEquiv n₁ n₂ b)
    · exact applyRows_replay portionK portionA portionI
        (forall₂_map_map fun b _ => portionStagedEquiv n₁ n₂ b)
    · exact applyRows_replay presetK presetA presetI
        (forall₂_map_map fun b _ => presetStagedEquiv eff n₁ n₂ b)
    · exact applyRows_replay presetItemK presetItemA presetItemI
        (forall₂_map_map fun b _ => presetItemStagedEquiv n₁ n₂ b)
    · exact applyRows_replay logK logA logI
        (forall₂_map_map fun b hb => logStagedEquiv eff n₁ n₂ b (hL b hb))
    · exact applyRows_replay weightK weightA weightI
        (forall₂_map_map fun b hb => weightStagedEquiv eff n₁ n₂ b (hW b hb))
    · exact applyRows_replay activityK activityA activityI
        (forall₂_map_map fun b _ => activityStagedEquiv eff n₁ n₂ b)

/-- A bundle with a food item, a timestamped log entry and a valid
activity row. -/
def c2wBundle : ExportBundle :=
  { emptyBundle with
    foodItems := [ownedBundleFood]
    logEntries := [{ id := "l1", userID := "u1", occurredAt := 5, kind := "food",
                     refID := "f8", servings := 1, meal := "dinner", note := "",
                     createdAt := 0 }]
    dailyActivity := [goodActivity] }

/-- The store committed by the first import of that bundle. -/
def c2wS1 : Store := (runImport emptyStore c2wBundle "" 1).1

/-- Witness for C2: replaying the bundle at a later `now` leaves the
committed store untouched and reports the same count. -/
theorem import_replay_idempotent_witness :
    importTx c2wS1 c2wBundle "" 2 = .ok (c2wS1, stagedCount c2wBundle) := by
  obtain ⟨S₂, h2, -, heq⟩ := import_replay_idempotent emptyStore c2wBundle "" 1 2 c2wS1
    (stagedCount c2wBundle) (by decide)
  rw [heq (by decide) (by decide)] at h2
  exact h2

/-! ### Claim C3 -/

/-- Primary keys (and the `daily_activity` unique key) are duplicate-free
in a well-formed store. -/
def StoreKeysNodup (S : Store) : Prop :=
  (S.foodItems.map fun r => r.id).Nodup ∧
  (S.recipes.map fun r => r.id).Nodup ∧
  (S.recipeIngredients.map fun r => r.id).Nodup ∧
  (S.recipePortions.map fun r => r.id).Nodup ∧
  (S.presets.map fun r => r.id).Nodup ∧
  (S.presetItems.map fun r => r.id).Nodup ∧
  (S.logEntries.map fun r => r.id).Nodup ∧
  (S.bodyWeights.map fun r => r.id).Nodup ∧
  (S.dailyActivity.map activityKey).Nodup

instance (S : Store) : Decidable (StoreKeysNodup S) := by
  unfold StoreKeysNodup
  exact inferInstance

/-- Re-importing the export of a stored food item merges back to the
stored row (owners are `NULL` or the exporting user). -/
theorem food_round_trip_row (U : String) (iNow : Nat) (s : FoodItemRow) (hU : U ≠ "")
    (h : s.userID = none ∨ s.userID = some U) :
    foodItemsMerge s (stageFoodItem U iNow (exportFoodItem s)) = s := by
  obtain ⟨sid, suid, sname, sbrand, slabel, ssource, scal, sprot, scarb, sfat, sfib,
    screated⟩ := s
  rcases h with h | h
  · dsimp only at h
    subst h
    simp [foodItemsMerge, stageFoodItem, exportFoodItem]
  · dsimp only at h
    subst h
    simp [foodItemsMerge, stageFoodItem, exportFoodItem, hU]

/-- Re-importing the export of a stored recipe merges back to the
stored row. -/
theorem recipe_round_trip_row (U : String) (iNow : Nat) (b : ExportRecipe)
    (hb : b.userID = U) : recipesMerge b (stageRecipe U iNow b) = b := by
  subst hb
  rfl

/-- Re-importing an exported recipe ingredient merges back to the
stored row. -/
theorem ingredient_round_trip_row (iNow : Nat) (b : ExportRecipeIngredient) :
    recipeIngredientsMerge b (stageRecipeIngredient iNow b) = b := rfl

/-- Re-importing an exported recipe portion merges back to the stored
row. -/
theorem portion_round_trip_row (iNow : Nat) (b : ExportRecipePortion) :
    recipePortionsMerge b (stageRecipePortion iNow b) = b := rfl

/-- Re-importing an exported preset merges back to the stored row. -/
theorem preset_round_trip_row (U : String) (iNow : Nat) (b : ExportPreset)
    (hb : b.userID = U) : presetsMerge b (stagePreset U iNow b) = b := by
  subst hb
  rfl

/-- Re-importing an exported preset item merges back to the stored row. -/
theorem preset_item_round_trip_row (iNow : Nat) (b : ExportPresetItem) :
    presetItemsMerge b (stagePresetItem iNow b) = b := rfl

/-- Re-importing an exported log entry merges back to the stored row
(the stored occurred-at being nonzero, the default is not taken). -/
theorem log_round_trip_row (U : String) (iNow : Nat) (b : ExportLogEntry)
    (hb : b.userID = U) (hocc : b.occurredAt ≠ 0) :
    logEntriesMerge b (stageLogEntry U iNow b) = b := by
  subst hb
  simp only [logEntriesMerge, stageLogEntry, if_neg hocc]

/-- Re-importing an exported body weight merges back to the stored row. -/
theorem weight_round_trip_row (U : String) (iNow : Nat) (b : ExportBodyWeight)
    (hb : b.userID = U) (hm : b.measuredAt ≠ 0) :
    bodyWeightsMerge b (stageBodyWeight U iNow b) = b := by
  subst hb
  simp only [bodyWeightsMerge, stageBodyWeight, if_neg hm]

/-- Re-importing an exported daily-activity row merges back to the
stored row. -/
theorem activity_round_trip_row (U : String) (iNow : Nat) (b : ExportDailyActivity)
    (hb : b.userID = U) : dailyActivityMerge b (stageDailyActivity U iNow b) = b := by
  subst hb
  rfl

/-- Claim C3: for a well-formed store whose food items are unowned or
owned by `U`, importing the bundle exported for `U` back into the same
store succeeds and is the identity — every exported row's identifier,
timestamps and amounts (indeed every stored field) are restored. -/
theorem export_import_round_trip (S : Store) (U : String) (eNow iNow : Nat)
    (hU : U ≠ "")
    (hUser : ∃ u ∈ S.users, u.id = U)
    (hOwn : ∀ f ∈ S.foodItems, f.userID = none ∨ f.userID = some U)
    (hKeys : StoreKeysNodup S)
    (hLog : ∀ l ∈ S.logEntries, l.occurredAt ≠ 0)
    (hWt : ∀ w ∈ S.bodyWeights, w.measuredAt ≠ 0)
    (hAct : ∀ a ∈ S.dailyActivity, (parseActivityDate a.date).isSome) :
    runImport S (exportBundle S U eNow) "" iNow =
      (S, .ok (stagedCount (exportBundle S U eNow))) := by
  have hdq : defaultQueryUser U = U := by
    rw [defaultQueryUser, if_neg hU]
  have hBuser : (exportBundle S U eNow).userID = U := by
    simp only [exportBundle]
    exact hdq
  have heff : resolveEffectiveUser "" (exportBundle S U eNow).userID = U := by
    rw [hBuser, resolveEffectiveUser, if_pos ⟨rfl, hU⟩]
  have hvalid : ∀ a ∈ (exportBundle S U eNow).dailyActivity,
      (parseActivityDate a.date).isSome := by
    intro a ha
    simp only [exportBundle] at ha
    exact hAct a (List.mem_filter.mp ha).1
  have himp : importTx S (exportBundle S U eNow) "" iNow =
      .ok (importedStore U iNow S (exportBundle S U eNow),
        stagedCount (exportBundle S U eNow)) := by
    unfold importTx
    rw [heff]
    exact importWithUser_eq_ok U iNow S _ hvalid
  have hstore : importedStore U iNow S (exportBundle S U eNow) = S := by
    refine storeExt ?_ ?_ ?_ ?_ ?_ ?_ ?_ ?_ ?_ ?_ <;>
      simp only [importedStore, exportBundle, hdq]
    · refine upsertBy_do_nothing (fun _ _ => rfl) ?_
      obtain ⟨u, hu, he⟩ := hUser
      exact ⟨u, hu, he⟩
    · apply applyRows_fix
      intro r hr
      rw [List.map_map] at hr
      obtain ⟨s, hs, rfl⟩ := List.mem_map.mp hr
      refine ⟨⟨s, hs, rfl⟩, ?_⟩
      intro x hx hid
      rw [List.inj_on_of_nodup_map hKeys.1 hx hs hid]
      exact food_round_trip_row U iNow s hU (hOwn s hs)
    · apply applyRows_fix
      intro r hr
      obtain ⟨b, hbf, rfl⟩ := List.mem_map.mp hr
      have hb0 := (List.mem_filter.mp hbf).1
      have hbU : b.userID = U := of_decide_eq_true (List.mem_filter.mp hbf).2
      refine ⟨⟨b, hb0, rfl⟩, ?_⟩
      intro x hx hid
      rw [List.inj_on_of_nodup_map hKeys.2.1 hx hb0 hid]
      exact recipe_round_trip_row U iNow b hbU
    · apply applyRows_fix
      intro r hr
      obtain ⟨b, hbf, rfl⟩ := List.mem_map.mp hr
      have hb0 := (List.mem_filter.mp hbf).1
      refine ⟨⟨b, hb0, rfl⟩, ?_⟩
      intro x hx hid
      rw [List.inj_on_of_nodup_map hKeys.2.2.1 hx hb0 hid]
      exact ingredient_round_trip_row iNow b
    · apply applyRows_fix
      intro r hr
      obtain ⟨b, hbf, rfl⟩ := List.mem_map.mp hr
      have hb0 := (List.mem_filter.mp hbf).1
      refine ⟨⟨b, hb0, rfl⟩, ?_⟩
      intro x hx hid
      rw [List.inj_on_of_nodup_map hKeys.2.2.2.1 hx hb0 hid]
      exact portion_round_trip_row iNow b
    · apply applyRows_fix
      intro r hr
      obtain ⟨b, hbf, rfl⟩ := List.mem_map.mp hr
      have hb0 := (List.mem_filter.mp hbf).1
      have hbU : b.userID = U := of_decide_eq_true (List.mem_filter.mp hbf).2
      refine ⟨⟨b, hb0, rfl⟩, ?_⟩
      intro x hx hid
      rw [List.inj_on_of_nodup_map hKeys.2.2.2.2.1 hx hb0 hid]
      exact preset_round_trip_row U iNow b hbU
    · apply applyRows_fix
      intro r hr
      obtain ⟨b, hbf, rfl⟩ := List.mem_map.mp hr
      have hb0 := (List.mem_filter.mp hbf).1
      refine ⟨⟨b, hb0, rfl⟩, ?_⟩
      intro x hx hid
      rw [List.inj_on_of_nodup_map hKeys.2.2.2.2.2.1 hx hb0 hid]
      exact preset_item_round_trip_row iNow b
    · apply applyRows_fix
      intro r hr
      obtain ⟨b, hbf, rfl⟩ := List.mem_map.mp hr
      have hb0 := (List.mem_filter.mp hbf).1
      have hbU : b.userID = U := of_decide_eq_true (List.mem_filter.mp hbf).2
      refine ⟨⟨b, hb0, rfl⟩, ?_⟩
      intro x hx hid
      rw [List.inj_on_of_nodup_map hKeys.2.2.2.2.2.2.1 hx hb0 hid]
      exact log_round_trip_row U iNow b hbU (hLog b hb0)
    · apply applyRows_fix
      intro r hr
      obtain ⟨b, hbf, rfl⟩ := List.mem_map.mp hr
      have hb0 := (List.mem_filter.mp hbf).1
      have hbU : b.userID = U := of_decide_eq_true (List.mem_filter.mp hbf).2
      refine ⟨⟨b, hb0, rfl⟩, ?_⟩
      intro x hx hid
      rw [List.inj_on_of_nodup_map hKeys.2.2.2.2.2.2.2.1 hx hb0 hid]
      exact weight_round_trip_row U iNow b hbU (hWt b hb0)
    · apply applyRows_fix
      intro r hr
      obtain ⟨b, hbf, rfl⟩ := List.mem_map.mp hr
      have hb0 := (List.mem_filter.mp hbf).1
      have hbU : b.userID = U := of_decide_eq_true (List.mem_filter.mp hbf).2
      have hkey : activityKey b = activityKey (stageDailyActivity U iNow b) := by
        simp [activityKey, stageDailyActivity, hbU]
      refine ⟨⟨b, hb0, hkey⟩, ?_⟩
      intro x hx hid
      rw [List.inj_on_of_nodup_map hKeys.2.2.2.2.2.2.2.2 hx hb0 (hid.trans hkey.symm)]
      exact activity_round_trip_row U iNow b hbU
  have hrun : runImport S (exportBundle S U eNow) "" iNow =
      (importedStore U iNow S (exportBundle S U eNow),
        .ok (stagedCount (exportBundle S U eNow))) := by
    unfold runImport
    rw [himp]
  rw [hrun, hstore]

/-- A populated store for user `u1`: two food items (one unowned), a
recipe sharing its id with a food item, an ingredient, a log entry, a
body weight and a leap-day activity row. -/
def c3wStore : Store :=
  { users := [sampleUser]
    foodItems :=
      [{ id := "f1", userID := some "u1", name := "Oats", brand := "", servingLabel := "100 g",
         source := "custom", caloriesPerServing := 389, proteinPerServing := 17,
         carbsPerServing := 66, fatPerServing := 7, fiberPerServing := 10, createdAt := 2 },
       { id := "f2", userID := none, name := "Salt", brand := "", servingLabel := "1 g",
         source := "custom", caloriesPerServing := 0, proteinPerServing := 0,
         carbsPerServing := 0, fatPerServing := 0, fiberPerServing := 0, createdAt := 2 }]
    recipes := [{ id := "f1", userID := "u1", name := "Oatmeal", instructions := "Cook.",
                  yieldCount := 1, createdAt := 3 }]
    recipeIngredients := [{ id := "ri1", recipeID := "f1", foodItemID := "f2", amountG := 5,
                            createdAt := 3 }]
    recipePortions := []
    presets := []
    presetItems := []
    logEntries := [{ id := "l1", userID := "u1", occurredAt := 11, kind := "food",
                     refID := "f1", servings := 1, meal := "breakfast", note := "",
                     createdAt := 11 }]
    bodyWeights := [{ id := "w1", userID := "u1", measuredAt := 12, weightKg := 80,
                      source := "manual", note := "", createdAt := 12 }]
    dailyActivity := [goodActivity] }

/-- Witness for C3: the populated store round-trips unchanged through
export and re-import. -/
theorem export_import_round_trip_witness :
    ("u1" : String) ≠ "" ∧ (∃ u ∈ c3wStore.users, u.id = "u1") ∧
      (∀ f ∈ c3wStore.foodItems, f.userID = none ∨ f.userID = some "u1") ∧
      StoreKeysNodup c3wStore ∧
      (∀ l ∈ c3wStore.logEntries, l.occurredAt ≠ 0) ∧
      (∀ w ∈ c3wStore.bodyWeights, w.measuredAt ≠ 0) ∧
      (∀ a ∈ c3wStore.dailyActivity, (parseActivityDate a.date).isSome) ∧
      runImport c3wStore (exportBundle c3wStore "u1" 20) "" 21 =
        (c3wStore, .ok (stagedCount (exportBundle c3wStore "u1" 20))) :=
  ⟨by decide, by decide, by decide, by decide, by decide, by decide, by decide,
   export_import_round_trip c3wStore "u1" 20 21 (by decide) (by decide) (by decide)
     (by decide) (by decide) (by decide) (by decide)⟩
